import Mathlib

set_option autoImplicit false

namespace Chatterbox

/-! Shallow embedding of the chatterbox-tts-api orchestration core:
text segmentation (app/core/text_processing.py), the request status
manager (app/core/status.py), audio concatenation, and the buffered
generation pipeline (app/api/endpoints/speech.py).  Python strings are
modelled as lists of characters; machine floats that only carry
timestamps or percentages are modelled as rationals. -/

/-- Python strings are modelled as lists of characters. -/
abbrev Str := List Char

/-- Python whitespace test (the ASCII part of `str.isspace` and of regex \s). -/
def pyIsSpace (c : Char) : Bool :=
  c == ' ' || c == '\t' || c == '\n' || c == '\r' || c == '\x0b' || c == '\x0c'

/-- Python `str.strip()`: remove leading and trailing whitespace. -/
def pyStrip (s : Str) : Str :=
  ((s.dropWhile pyIsSpace).reverse.dropWhile pyIsSpace).reverse

/-- Accumulator for `pyWords`; `acc` holds the current word reversed. -/
def pyWordsAux : Str → Str → List Str
  | acc, [] => if acc.isEmpty then [] else [acc.reverse]
  | acc, c :: rest =>
    if pyIsSpace c then
      if acc.isEmpty then pyWordsAux [] rest else acc.reverse :: pyWordsAux [] rest
    else pyWordsAux (c :: acc) rest

/-- Python `str.split()` with no separator: maximal runs of non-whitespace. -/
def pyWords (s : Str) : List Str := pyWordsAux [] s

/-- Test whether `d` is a leading segment of `s`. -/
def leadsWith : Str → Str → Bool
  | [], _ => true
  | _ :: _, [] => false
  | a :: as, b :: bs => a == b && leadsWith as bs

/-- Index of the leftmost occurrence of `d` as a contiguous segment of `s`
(Python `str.find`, with `none` in place of -1). -/
def findSub (d : Str) : Str → Option Nat
  | [] => if leadsWith d [] then some 0 else none
  | c :: rest =>
    if leadsWith d (c :: rest) then some 0 else (findSub d rest).map (· + 1)

/-- Accumulator for `pySplitOn`.  The first numeric argument counts delimiter
characters still to be skipped after a match; `acc` holds the current piece
reversed.  Structured this way the recursion is structural in the text. -/
def pySplitOnAux (d : Str) : Nat → Str → Str → List Str
  | Nat.succ k, acc, _ :: rest => pySplitOnAux d k acc rest
  | Nat.succ _, acc, [] => [acc.reverse]
  | 0, acc, [] => [acc.reverse]
  | 0, acc, c :: rest =>
    if leadsWith d (c :: rest) then
      acc.reverse :: pySplitOnAux d (d.length - 1) [] rest
    else pySplitOnAux d 0 (c :: acc) rest

/-- Python `str.split(sep)` for a non-empty separator (an empty separator
raises ValueError in Python and never occurs in this code base). -/
def pySplitOn (d s : Str) : List Str := pySplitOnAux d 0 [] s

/-- Join a list of strings with a separator (Python `sep.join`). -/
def joinWith (sep : Str) : List Str → Str
  | [] => []
  | [x] => x
  | x :: y :: ys => x ++ sep ++ joinWith sep (y :: ys)

/-- Accumulator for `sliceEvery`: `k` is the number of characters still
accepted into the current slice, `acc` the current slice reversed. -/
def sliceEveryAux (n : Nat) : Nat → Str → Str → List Str
  | _, acc, [] => if acc.isEmpty then [] else [acc.reverse]
  | 0, acc, c :: rest => acc.reverse :: sliceEveryAux n (n - 1) [c] rest
  | Nat.succ k, acc, c :: rest => sliceEveryAux n k (c :: acc) rest

/-- Python `[w[i:i+n] for i in range(0, len(w), n)]` for `n > 0`
(step 0 raises ValueError in Python; the callers below never pass 0,
and the model returns [] there). -/
def sliceEvery (n : Nat) (w : Str) : List Str :=
  if n = 0 then [] else sliceEveryAux n n [] w

/-- Whitespace-normalised content of a string: its non-whitespace
characters in order. -/
def filterNonWs (s : Str) : Str := s.filter (fun c => !pyIsSpace c)

/-- Python truthiness-based default for optional ints: `x or d`
(both `None` and `0` are falsy). -/
def pyOrNat (x : Option Nat) (d : Nat) : Nat :=
  match x with
  | none => d
  | some 0 => d
  | some n => n

/-- Python truthiness-based default for optional strings: `x or d`
(both `None` and the empty string are falsy). -/
def pyOrStr (x : Option Str) (d : Str) : Str :=
  match x with
  | none => d
  | some [] => d
  | some s => s

/-! ### split_text_into_chunks (text_processing.py lines 12-111) -/

/-- Sentence endings searched by `split_text_into_chunks` (line 21). -/
def sentence_endings : List Str :=
  [". ".toList, "! ".toList, "? ".toList, ".\n".toList, "!\n".toList, "?\n".toList]

/-- One pass of the best-split search over `sentence_endings`
(lines 30-37): track the best split position, updating on each ending
found strictly before the current best. -/
def bestSplit (temp : Str) : Nat :=
  sentence_endings.foldl
    (fun best e =>
      match findSub e temp with
      | none => best
      | some pos => if pos < best then pos + e.length else best)
    temp.length

/-- Consuming loop for `splitSentences`: take `k+1` more characters into the
current sentence, then restart the best-split search on the remainder
(lines 29-45).  `acc` is the current sentence reversed. -/
def splitSentencesGo : Nat → Str → Str → List Str
  | Nat.succ k, acc, c :: rest =>
    if k = 0 then
      (c :: acc).reverse ::
        (if rest.isEmpty then []
         else if bestSplit rest = rest.length then [rest]
         else splitSentencesGo (bestSplit rest) [] rest)
    else splitSentencesGo k (c :: acc) rest
  | 0, acc, rest => [acc.reverse ++ rest]
  | Nat.succ _, acc, [] => [acc.reverse]

/-- The sentence-collection while-loop of `split_text_into_chunks`
(lines 26-45): repeatedly cut the text right after the earliest sentence
ending; when none is found, take the rest.  (A best split is always at
least 2 and at most the remaining length, so the two fallback arms of
`splitSentencesGo` are unreachable.) -/
def splitSentences (s : Str) : List Str :=
  if s.isEmpty then []
  else if bestSplit s = s.length then [s]
  else splitSentencesGo (bestSplit s) [] s

/-- Clause sub-delimiters of `split_text_into_chunks` (line 62). -/
def sub_delimiters : List Str :=
  [", ".toList, "; ".toList, " - ".toList, " — ".toList]

/-- One delimiter pass of the oversize-sentence fallback (lines 65-82,
and identically lines 289-306): re-split each still-oversized chunk at the
delimiter and greedily re-pack the parts. -/
def delimiterPass (max_length : Nat) (chunks : List Str) (delimiter : Str) :
    List Str :=
  chunks.foldl
    (fun new_chunks chunk =>
      if chunk.length ≤ max_length then new_chunks ++ [chunk]
      else
        let parts := pySplitOn delimiter chunk
        let s := parts.foldl
          (fun (s : List Str × Str) part =>
            let (ncs, cp) := s
            if cp.length + delimiter.length + part.length ≤ max_length then
              (ncs, if cp.isEmpty then part else cp ++ delimiter ++ part)
            else ((if cp.isEmpty then ncs else ncs ++ [cp]), part))
          (new_chunks, [])
        if s.2.isEmpty then s.1 else s.1 ++ [s.2])
    []

/-- Word-packing last resort of `split_text_into_chunks` (lines 92-98):
no character-level slicing, and the flushed chunks are not stripped. -/
def intoWordsStep (max_length : Nat) (s : List Str × Str) (word : Str) :
    List Str × Str :=
  let (chunks, cur) := s
  if cur.length + word.length + 1 ≤ max_length then
    (chunks, if cur.isEmpty then word else cur ++ " ".toList ++ word)
  else ((if cur.isEmpty then chunks else chunks ++ [cur]), word)

/-- Sentence-grouping step of `split_text_into_chunks` (lines 48-103).
State is (finished chunks, current chunk).  Note the packing test on
line 53 has no +1 for the joining space. -/
def groupStep (max_length : Nat) (s : List Str × Str) (sentence0 : Str) :
    List Str × Str :=
  let (chunks, current_chunk) := s
  let sentence := pyStrip sentence0
  if sentence.isEmpty then (chunks, current_chunk)
  else if current_chunk.length + sentence.length ≤ max_length then
    (chunks,
      if current_chunk.isEmpty then sentence
      else current_chunk ++ " ".toList ++ sentence)
  else
    let chunks :=
      if current_chunk.isEmpty then chunks else chunks ++ [pyStrip current_chunk]
    if max_length < sentence.length then
      let sub_chunks := sub_delimiters.foldl (delimiterPass max_length) [sentence]
      let chunks := sub_chunks.foldl
        (fun cs sub_chunk =>
          if sub_chunk.length ≤ max_length then cs ++ [pyStrip sub_chunk]
          else
            let s2 := (pyWords sub_chunk).foldl (intoWordsStep max_length) (cs, [])
            if s2.2.isEmpty then s2.1 else s2.1 ++ [s2.2])
        chunks
      (chunks, [])
    else (chunks, sentence)

/-- `split_text_into_chunks(text, max_length)` (lines 12-111). -/
def split_text_into_chunks (text : Str) (max_length : Nat) : List Str :=
  if text.length ≤ max_length then [text]
  else
    let sentences := splitSentences text
    let s := sentences.foldl (groupStep max_length) ([], [])
    let chunks := if s.2.isEmpty then s.1 else s.1 ++ [pyStrip s.2]
    chunks.filter (fun c => !(pyStrip c).isEmpty)

/-! ### split_text_for_streaming and its strategy helpers (lines 114-317) -/

/-- Head of the reversed current piece is a sentence-final punctuation mark
(the lookbehind `(?<=[.!?])` of the regex on line 202). -/
def lastIsSentEnd (accRev : Str) : Bool :=
  match accRev with
  | [] => false
  | p :: _ => p == '.' || p == '!' || p == '?'

/-- Scanner for `re.split` with pattern `(?<=[.!?])\s+` (line 202-203).
The Bool is true while consuming a whitespace run that started right after
sentence-final punctuation; `acc` is the piece before that run, reversed. -/
def sentRegexAux : Bool → Str → Str → List Str
  | false, acc, [] => [acc.reverse]
  | true, acc, [] => [acc.reverse, []]
  | false, acc, c :: rest =>
    if pyIsSpace c && lastIsSentEnd acc then sentRegexAux true acc rest
    else sentRegexAux false (c :: acc) rest
  | true, acc, c :: rest =>
    if pyIsSpace c then sentRegexAux true acc rest
    else acc.reverse :: sentRegexAux false [c] rest

/-- Python `re.split(r'(?<=[.!?])\s+', s)`: cut at each maximal whitespace
run that immediately follows `.`, `!` or `?`, dropping the run. -/
def sentRegexSplit (s : Str) : List Str := sentRegexAux false [] s

/-- States of the scanner for `re.split(r'\n\s*\n', s)`:
`norm` builds a piece; `pend` has seen one newline followed only by
non-newline whitespace (no match yet); `conf` has seen a second newline
(match confirmed, trailing whitespace may extend it up to its last newline). -/
inductive ParaMode
  | norm
  | pend
  | conf
deriving DecidableEq

/-- Scanner for `re.split(r'\n\s*\n', s)` (line 165).  `acc` is the current
piece reversed; `buf` is the whitespace consumed since the newline currently
under consideration, reversed.  Greedy backtracking of `\s*` means a match
extends to the last newline of the whitespace run; whitespace after that
newline belongs to the next piece. -/
def paraSplitAux : ParaMode → Str → Str → Str → List Str
  | .norm, acc, _, [] => [acc.reverse]
  | .pend, acc, buf, [] => [acc.reverse ++ buf.reverse]
  | .conf, acc, buf, [] => [acc.reverse, buf.reverse]
  | .norm, acc, _, c :: rest =>
    if c == '\n' then paraSplitAux .pend acc [c] rest
    else paraSplitAux .norm (c :: acc) [] rest
  | .pend, acc, buf, c :: rest =>
    if c == '\n' then paraSplitAux .conf acc [] rest
    else if pyIsSpace c then paraSplitAux .pend acc (c :: buf) rest
    else paraSplitAux .norm (c :: (buf ++ acc)) [] rest
  | .conf, acc, buf, c :: rest =>
    if c == '\n' then paraSplitAux .conf acc [] rest
    else if pyIsSpace c then paraSplitAux .conf acc (c :: buf) rest
    else acc.reverse :: paraSplitAux .norm (c :: buf) [] rest

/-- Python `re.split(r'\n\s*\n', s)`: split at blank-line runs. -/
def paraRegexSplit (s : Str) : List Str := paraSplitAux .norm [] [] s

/-- Word-packing step of `_split_by_words` (lines 244-263); unlike the last
resort of `split_text_into_chunks`, an over-long word is hard-sliced at
character boundaries. -/
def wordsStep (max_length : Nat) (s : List Str × Str) (word : Str) :
    List Str × Str :=
  let (chunks, current_chunk) := s
  if current_chunk.length + word.length + 1 ≤ max_length then
    (chunks,
      if current_chunk.isEmpty then word
      else current_chunk ++ " ".toList ++ word)
  else
    let chunks :=
      if current_chunk.isEmpty then chunks
      else chunks ++ [pyStrip current_chunk]
    if max_length < word.length then (chunks ++ sliceEvery max_length word, [])
    else (chunks, word)

/-- `_split_by_words(text, max_length)` (lines 238-268). -/
def split_by_words (text : Str) (max_length : Nat) : List Str :=
  let s := (pyWords text).foldl (wordsStep max_length) ([], [])
  let chunks := if s.2.isEmpty then s.1 else s.1 ++ [pyStrip s.2]
  chunks.filter (fun c => !(pyStrip c).isEmpty)

/-- `_split_by_fixed_size(text, chunk_size)` (lines 271-279). -/
def split_by_fixed_size (text : Str) (chunk_size : Nat) : List Str :=
  ((sliceEvery chunk_size text).map pyStrip).filter (fun c => !c.isEmpty)

/-- Clause delimiters of `_split_long_sentence` (line 285). -/
def long_sentence_delimiters : List Str :=
  [", ".toList, "; ".toList, " - ".toList, " — ".toList, ": ".toList,
   " and ".toList, " or ".toList, " but ".toList]

/-- `_split_long_sentence(sentence, max_length)` (lines 282-317): the
delimiter ladder, then a word-level (and character-level) fallback. -/
def split_long_sentence (sentence : Str) (max_length : Nat) : List Str :=
  let chunks :=
    long_sentence_delimiters.foldl (delimiterPass max_length) [sentence]
  let final_chunks := chunks.foldl
    (fun fc chunk =>
      if chunk.length ≤ max_length then fc ++ [chunk]
      else fc ++ split_by_words chunk max_length)
    []
  (final_chunks.map pyStrip).filter (fun c => !c.isEmpty)

/-- Sentence-packing step of `_split_by_sentences` (lines 208-230). -/
def sentencesStep (max_length : Nat) (s : List Str × Str) (sentence0 : Str) :
    List Str × Str :=
  let (chunks, current_chunk) := s
  let sentence := pyStrip sentence0
  if sentence.isEmpty then (chunks, current_chunk)
  else if current_chunk.length + sentence.length + 1 ≤ max_length then
    (chunks,
      if current_chunk.isEmpty then sentence
      else current_chunk ++ " ".toList ++ sentence)
  else
    let chunks :=
      if current_chunk.isEmpty then chunks
      else chunks ++ [pyStrip current_chunk]
    if max_length < sentence.length then
      (chunks ++ split_long_sentence sentence max_length, [])
    else (chunks, sentence)

/-- `_split_by_sentences(text, max_length)` (lines 199-235). -/
def split_by_sentences (text : Str) (max_length : Nat) : List Str :=
  let sentences := sentRegexSplit (pyStrip text)
  let s := sentences.foldl (sentencesStep max_length) ([], [])
  let chunks := if s.2.isEmpty then s.1 else s.1 ++ [pyStrip s.2]
  chunks.filter (fun c => !(pyStrip c).isEmpty)

/-- Paragraph-packing step of `_split_by_paragraphs` (lines 169-191);
the +2 accounts for the paragraph break. -/
def paragraphsStep (max_length : Nat) (s : List Str × Str) (paragraph0 : Str) :
    List Str × Str :=
  let (chunks, current_chunk) := s
  let paragraph := pyStrip paragraph0
  if paragraph.isEmpty then (chunks, current_chunk)
  else if current_chunk.length + paragraph.length + 2 ≤ max_length then
    (chunks,
      if current_chunk.isEmpty then paragraph
      else current_chunk ++ "\n\n".toList ++ paragraph)
  else
    let chunks :=
      if current_chunk.isEmpty then chunks
      else chunks ++ [pyStrip current_chunk]
    if max_length < paragraph.length then
      (chunks ++ split_by_sentences paragraph max_length, [])
    else (chunks, paragraph)

/-- `_split_by_paragraphs(text, max_length)` (lines 162-196). -/
def split_by_paragraphs (text : Str) (max_length : Nat) : List Str :=
  let paragraphs := paraRegexSplit (pyStrip text)
  let s := paragraphs.foldl (paragraphsStep max_length) ([], [])
  let chunks := if s.2.isEmpty then s.1 else s.1 ++ [pyStrip s.2]
  chunks.filter (fun c => !(pyStrip c).isEmpty)

/-- Quality-preset stage of `split_text_for_streaming` (lines 133-142);
`if quality:` is Python truthiness, and inside a preset the explicit
values win through `x or default`. -/
def applyQuality (chunk_size : Option Nat) (strategy : Option Str)
    (quality : Option Str) : Option Nat × Option Str :=
  match quality with
  | none => (chunk_size, strategy)
  | some q =>
    if q.isEmpty then (chunk_size, strategy)
    else if q = "fast".toList then
      (some (pyOrNat chunk_size 100), some (pyOrStr strategy "word".toList))
    else if q = "balanced".toList then
      (some (pyOrNat chunk_size 200), some (pyOrStr strategy "sentence".toList))
    else if q = "high".toList then
      (some (pyOrNat chunk_size 300), some (pyOrStr strategy "paragraph".toList))
    else (chunk_size, strategy)

/-- Effective chunk size and strategy after presets and defaults
(lines 133-146). -/
def resolveStreaming (chunk_size : Option Nat) (strategy : Option Str)
    (quality : Option Str) : Nat × Str :=
  let s := applyQuality chunk_size strategy quality
  (pyOrNat s.1 200, pyOrStr s.2 "sentence".toList)

/-- `split_text_for_streaming(text, chunk_size, strategy, quality)`
(lines 114-159). -/
def split_text_for_streaming (text : Str) (chunk_size : Option Nat)
    (strategy : Option Str) (quality : Option Str) : List Str :=
  let r := resolveStreaming chunk_size strategy quality
  if r.2 = "paragraph".toList then split_by_paragraphs text r.1
  else if r.2 = "sentence".toList then split_by_sentences text r.1
  else if r.2 = "word".toList then split_by_words text r.1
  else if r.2 = "fixed".toList then split_by_fixed_size text r.1
  else split_by_sentences text r.1

/-! ### concatenate_audio_chunks (text_processing.py lines 352-379)

Audio tensors of shape (1, n) are modelled as lists of samples. -/

/-- `concatenate_audio_chunks(audio_chunks, sample_rate)` (lines 352-379).
A single chunk is returned unchanged; otherwise chunks are joined with
`int(0.1 * sample_rate)` samples of silence (float truncation, i.e. `sr / 10`
rounded toward zero).  An empty list raises IndexError in Python and is
unreachable from the callers; the model returns []. -/
def concatenate_audio_chunks : List (List Int) → Nat → List Int
  | [], _ => []
  | [c], _ => c
  | c :: rest, sample_rate =>
    let silence : List Int := List.replicate (sample_rate / 10) 0
    rest.foldl (fun concatenated chunk => concatenated ++ silence ++ chunk) c

/-! ### Request status tracking (app/core/status.py)

Wall-clock instants (`datetime.now(timezone.utc)`) are modelled as rational
timestamps passed in by the caller of each operation; the uuid drawn by
`start_request` is likewise passed in.  Python dicts keyed by strings are
modelled as association lists. -/

/-- `TTSStatus` (status.py lines 15-25). -/
inductive TTSStatus
  | idle
  | initializing
  | processing_text
  | chunking
  | generating_audio
  | concatenating
  | finalizing
  | completed
  | error
deriving DecidableEq

/-- `TTSProgressInfo` (lines 28-41). -/
structure TTSProgressInfo where
  current_chunk : Nat := 0
  total_chunks : Nat := 0
  current_step : Str := []
  estimated_completion : Option ℚ := none
deriving DecidableEq

/-- `TTSProgressInfo.progress_percentage` (lines 36-41). -/
def TTSProgressInfo.progress_percentage (p : TTSProgressInfo) : ℚ :=
  if p.total_chunks = 0 then 0
  else ((p.current_chunk : ℚ) / (p.total_chunks : ℚ)) * 100

/-- Generation parameters recorded with a request (the parameters dict
built in speech.py lines 89-94). -/
structure RequestParams where
  exaggeration : Option ℚ := none
  cfg_weight : Option ℚ := none
  temperature : Option ℚ := none
  voice_sample_path : Str := []
deriving DecidableEq

/-- `TTSRequestInfo` (lines 44-66). -/
structure TTSRequestInfo where
  request_id : Str
  status : TTSStatus
  start_time : ℚ
  end_time : Option ℚ := none
  text_length : Nat := 0
  text_preview : Str := []
  voice_source : Str := "default".toList
  parameters : RequestParams := {}
  progress : TTSProgressInfo := {}
  error_message : Option Str := none
  memory_usage : List (Str × ℚ) := []
deriving DecidableEq

/-- `TTSRequestInfo.duration_seconds` (lines 68-73), at instant `now`. -/
def TTSRequestInfo.duration_seconds (r : TTSRequestInfo) (now : ℚ) : ℚ :=
  match r.end_time with
  | some e => e - r.start_time
  | none => now - r.start_time

/-- Replace the value at key `k`, or append the binding (a Python dict
assignment on an association-list model). -/
def pySetKey (d : List (Str × ℚ)) (k : Str) (v : ℚ) : List (Str × ℚ) :=
  if d.any (fun kv => kv.1 = k) then
    d.map (fun kv => if kv.1 = k then (k, v) else kv)
  else d ++ [(k, v)]

/-- Python `dict.update`. -/
def pyDictUpdate (d : List (Str × ℚ)) : List (Str × ℚ) → List (Str × ℚ)
  | [] => d
  | (k, v) :: rest => pyDictUpdate (pySetKey d k v) rest

/-- State of `TTSStatusManager` (lines 81-89); `_max_history` is 10. -/
structure TTSStatusManager where
  current_request : Option TTSRequestInfo := none
  request_history : List TTSRequestInfo := []
  total_requests : Nat := 0
deriving DecidableEq

/-- `_max_history` (line 88). -/
def max_history : Nat := 10

/-- The fresh record built by `start_request` (lines 101-109). -/
def startRecord (freshId : Str) (now : ℚ) (text : Str) (voice_source : Str)
    (parameters : RequestParams) : TTSRequestInfo :=
  { request_id := freshId
    status := .initializing
    start_time := now
    text_length := text.length
    text_preview :=
      if 100 < text.length then text.take 100 ++ "...".toList else text
    voice_source := voice_source
    parameters := parameters }

/-- `TTSStatusManager.start_request` (lines 91-112); `freshId` models the
uuid draw and `now` the clock read. -/
def TTSStatusManager.start_request (m : TTSStatusManager) (freshId : Str)
    (now : ℚ) (text : Str) (voice_source : Str) (parameters : RequestParams) :
    TTSStatusManager × Str :=
  ({ m with
      current_request := some (startRecord freshId now text voice_source
        parameters)
      total_requests := m.total_requests + 1 },
   freshId)

/-- `TTSStatusManager._finalize_request` (lines 159-170): append the live
record to the history, trim the history to the last `max_history` entries,
and clear the live record. -/
def TTSStatusManager.finalize_request (m : TTSStatusManager) :
    TTSStatusManager :=
  match m.current_request with
  | none => m
  | some r =>
    let hist := m.request_history ++ [r]
    let hist :=
      if max_history < hist.length then hist.drop (hist.length - max_history)
      else hist
    { m with request_history := hist, current_request := none }

/-- Field mutations of `update_status` on the matched live record
(lines 129-152), factored out.  `none` models a Python argument left at its
default; the truthiness tests on `current_step`, `memory_usage` and
`error_message` are explicit. -/
def updateRecord (now : ℚ) (status : TTSStatus) (current_step : Str)
    (current_chunk : Option Nat) (total_chunks : Option Nat)
    (memory_usage : Option (List (Str × ℚ))) (error_message : Option Str)
    (r0 : TTSRequestInfo) : TTSRequestInfo :=
  let r := { r0 with status := status }
  let r :=
    if ¬current_step.isEmpty then
      { r with progress.current_step := current_step }
    else r
  let r :=
    match current_chunk with
    | some c => { r with progress.current_chunk := c }
    | none => r
  let r :=
    match total_chunks with
    | some t =>
      let r := { r with progress.total_chunks := t }
      match current_chunk with
      | some c =>
        if 0 < c then
          let elapsed := r.duration_seconds now
          let estimated_total := elapsed / (c : ℚ) * (t : ℚ)
          -- Python max(0, x), written with the executable comparison Rat.blt
          let remaining :=
            if Rat.blt (estimated_total - elapsed) 0 then 0
            else estimated_total - elapsed
          { r with progress.estimated_completion := some (now + remaining) }
        else r
      | none => r
    | none => r
  let r :=
    match memory_usage with
    | some mu =>
      if ¬mu.isEmpty then
        { r with memory_usage := pyDictUpdate r.memory_usage mu }
      else r
    | none => r
  match error_message with
  | some msg =>
    if ¬msg.isEmpty then { r with error_message := some msg } else r
  | none => r

/-- `TTSStatusManager.update_status` (lines 114-157). -/
def TTSStatusManager.update_status (m : TTSStatusManager) (now : ℚ)
    (request_id : Str) (status : TTSStatus) (current_step : Str)
    (current_chunk : Option Nat) (total_chunks : Option Nat)
    (memory_usage : Option (List (Str × ℚ))) (error_message : Option Str) :
    TTSStatusManager :=
  match m.current_request with
  | none => m
  | some r0 =>
    if r0.request_id ≠ request_id then m
    else
      let r := updateRecord now status current_step current_chunk
        total_chunks memory_usage error_message r0
      if status = .completed ∨ status = .error then
        TTSStatusManager.finalize_request
          { m with current_request := some { r with end_time := some now } }
      else { m with current_request := some r }

/-- Python `lst[-limit:]` for a natural `limit` (note `lst[-0:]` is the
whole list). -/
def pyLastSlice {α : Type} (l : List α) (limit : Nat) : List α :=
  if limit = 0 then l else l.drop (l.length - limit)

/-- `TTSStatusManager.get_request_history` (lines 207-219): the last
`limit` records, most recent first.  The per-record dict serialization is
dropped; the model returns the records themselves. -/
def TTSStatusManager.get_request_history (m : TTSStatusManager)
    (limit : Nat) : List TTSRequestInfo :=
  (pyLastSlice m.request_history limit).reverse

/-- Result of `TTSStatusManager.get_current_status` (lines 172-205),
modelled as a sum: the IDLE sentinel dict, or the live record dict. -/
inductive StatusSnapshot
  | idleSentinel (total_requests : Nat)
  | activeRecord (r : TTSRequestInfo) (total_requests : Nat)
deriving DecidableEq

/-- `TTSStatusManager.get_current_status` (lines 172-205); the timestamp
and duration fields added to the dict are functions of the returned record
and are not duplicated in the model. -/
def TTSStatusManager.get_current_status (m : TTSStatusManager) :
    StatusSnapshot :=
  match m.current_request with
  | none => .idleSentinel m.total_requests
  | some r => .activeRecord r m.total_requests

/-! ### generate_speech_internal (app/api/endpoints/speech.py lines 73-278)

The inference engine is an oracle mapping (chunk index, chunk text) to a
waveform or a failure message; the clock and the uuid draw are fixed inputs.
WAV serialization is abstracted away: the buffered response carries the
final sample list. -/

/-- Environment of one call to `generate_speech_internal`: configuration
values, engine availability, and the inference oracle. -/
structure GenEnv where
  modelLoaded : Bool
  enableMemoryMonitoring : Bool
  memInfo : List (Str × ℚ)
  maxTotalLength : Nat
  maxChunkLength : Nat
  sr : Nat
  gen : Nat → Str → Except Str (List Int)
  freshId : Str
  now : ℚ
  voiceSamplePath : Str
  configVoicePath : Str

/-- Outcome of `generate_speech_internal`: the buffered audio, or the
HTTPException raised (status code, message, error type). -/
inductive GenOutcome
  | ok (audio : List Int)
  | httpError (statusCode : Nat) (message : Str) (errType : Str)
deriving DecidableEq

/-- Observable result of one `generate_speech_internal` call: the outcome,
the status-manager state after it, how many inference calls were made, and
whether the cleanup (`finally`) block ran.  The length and availability
checks (lines 100-132) precede the `try`, so their raises skip cleanup. -/
structure GenResult where
  outcome : GenOutcome
  manager : TTSStatusManager
  inference_calls : Nat
  cleanup_ran : Bool
deriving DecidableEq

/-- Error message of the over-length rejection (lines 122-131). -/
def lengthErrorMsg (maxTotal : Nat) : Str :=
  "Input text too long. Maximum ".toList ++ (Nat.repr maxTotal).toList ++
    " characters allowed.".toList

/-- Progress step string of the chunk loop (line 163). -/
def chunkStepMsg (i n : Nat) : Str :=
  "Generating audio for chunk ".toList ++ (Nat.repr i).toList ++ "/".toList ++
    (Nat.repr n).toList

/-- The per-chunk generation loop (lines 161-194): update progress, call the
engine, and abort on the first failure.  Returns the manager, the number of
inference calls made, and either the collected waveforms or the failure
message. -/
def genLoop (env : GenEnv) (rid : Str) (total : Nat) :
    Nat → List Str → TTSStatusManager → List (List Int) →
    TTSStatusManager × Nat × Except Str (List (List Int))
  | i, [], m, acc => (m, i, .ok acc)
  | i, chunk :: rest, m, acc =>
    let m := m.update_status env.now rid .generating_audio
      (chunkStepMsg (i + 1) total) (some (i + 1)) (some total) none none
    match env.gen i chunk with
    | .error e => (m, i + 1, .error e)
    | .ok wav => genLoop env rid total (i + 1) rest m (acc ++ [wav])

/-- Request-tracking prologue of `generate_speech_internal` (lines 84-97):
start tracking and issue the first INITIALIZING update.  Returns the manager
and the request id. -/
def genStage0 (env : GenEnv) (text : Str) (m0 : TTSStatusManager) :
    TTSStatusManager × Str :=
  let voice_source :=
    if env.voiceSamplePath ≠ env.configVoicePath then "uploaded file".toList
    else "default".toList
  let started := m0.start_request env.freshId env.now text voice_source
    { voice_sample_path := env.voiceSamplePath }
  (started.1.update_status env.now started.2 .initializing
    "Checking model availability".toList none none none none,
   started.2)

/-- Memory-monitoring and text-validation updates of
`generate_speech_internal` (lines 107-120). -/
def genStage1 (env : GenEnv) (m : TTSStatusManager) (request_id : Str) :
    TTSStatusManager :=
  let m :=
    if env.enableMemoryMonitoring then
      m.update_status env.now request_id .initializing
        "Monitoring initial memory".toList none none (some env.memInfo) none
    else m
  m.update_status env.now request_id .processing_text
    "Validating text length".toList none none none none

/-- `generate_speech_internal(text, ...)` (lines 73-278), threading the
status manager explicitly. -/
def generate_speech_internal (env : GenEnv) (text : Str)
    (m0 : TTSStatusManager) : GenResult :=
  let s0 := genStage0 env text m0
  let m := s0.1
  let request_id := s0.2
  if ¬env.modelLoaded then
    let m := m.update_status env.now request_id .error [] none none none
      (some "Model not loaded".toList)
    { outcome := .httpError 500 "Model not loaded".toList "model_error".toList
      manager := m, inference_calls := 0, cleanup_ran := false }
  else
    let m := genStage1 env m request_id
    if env.maxTotalLength < text.length then
      let m := m.update_status env.now request_id .error [] none none none
        (some (lengthErrorMsg env.maxTotalLength))
      { outcome := .httpError 400 (lengthErrorMsg env.maxTotalLength)
          "invalid_request_error".toList
        manager := m, inference_calls := 0, cleanup_ran := false }
    else
      let m := m.update_status env.now request_id .chunking
        "Splitting text into chunks".toList none none none none
      let chunks := split_text_into_chunks text env.maxChunkLength
      let m := m.update_status env.now request_id .generating_audio
        "Starting audio generation".toList (some 0) (some chunks.length)
        none none
      let loopOut := genLoop env request_id chunks.length 0 chunks m []
      let m := loopOut.1
      let calls := loopOut.2.1
      match loopOut.2.2 with
      | .error e =>
        let msg := "TTS generation failed: ".toList ++ e
        let m := m.update_status env.now request_id .error [] none none none
          (some msg)
        { outcome := .httpError 500 msg "generation_error".toList
          manager := m, inference_calls := calls, cleanup_ran := true }
      | .ok audio_chunks =>
        match audio_chunks with
        | [] =>
          -- audio_chunks[0] on an empty list raises IndexError inside the
          -- try block (only reachable when the text splits to no chunks);
          -- the except branch turns it into a generation error.
          let msg := "TTS generation failed: list index out of range".toList
          let m := m.update_status env.now request_id .error [] none none none
            (some msg)
          { outcome := .httpError 500 msg "generation_error".toList
            manager := m, inference_calls := calls, cleanup_ran := true }
        | first :: restAudio =>
          let m :=
            if 1 < audio_chunks.length then
              m.update_status env.now request_id .concatenating
                "Concatenating audio chunks".toList none none none none
            else m
          let final_audio :=
            if 1 < audio_chunks.length then
              concatenate_audio_chunks (first :: restAudio) env.sr
            else first
          let m := m.update_status env.now request_id .finalizing
            "Converting to WAV format".toList none none none none
          let m := m.update_status env.now request_id .completed
            "Audio generation completed".toList none none none none
          { outcome := .ok final_audio, manager := m,
            inference_calls := calls, cleanup_ran := true }

/-! ### Operation sequences over the status manager (for the lifecycle
invariant) -/

/-- A mutating operation on the shared status manager. -/
inductive MgrOp
  | start (freshId : Str) (now : ℚ) (text : Str) (voice : Str)
      (params : RequestParams)
  | update (now : ℚ) (request_id : Str) (status : TTSStatus) (step : Str)
      (current_chunk : Option Nat) (total_chunks : Option Nat)
      (memory_usage : Option (List (Str × ℚ))) (error_message : Option Str)
  | clearHistory

/-- Apply one operation (`clear_history` is lines 246-249). -/
def applyOp (m : TTSStatusManager) : MgrOp → TTSStatusManager
  | .start freshId now text voice params =>
    (m.start_request freshId now text voice params).1
  | .update now rid status step c t mu em =>
    m.update_status now rid status step c t mu em
  | .clearHistory => { m with request_history := [] }

/-- Apply a sequence of operations from left to right. -/
def applyOps (m : TTSStatusManager) (ops : List MgrOp) : TTSStatusManager :=
  ops.foldl applyOp m

/-- Scenario driver: start a request with the given id and immediately
finalize it as COMPLETED (the happy path of one request, collapsed). -/
def runCompleted (m : TTSStatusManager) (freshId : Str) : TTSStatusManager :=
  let started := m.start_request freshId 0 [] "default".toList {}
  started.1.update_status 0 started.2 .completed
    "Audio generation completed".toList none none none none

/-- History trimming applied by `_finalize_request` (lines 165-167), as a
standalone function: keep at most the last `max_history` records.
Note that for a list of at most `max_history` entries the drop is a no-op,
so this equals `hist.drop (hist.length - max_history)` unconditionally. -/
def trimHistory (hist : List TTSRequestInfo) : List TTSRequestInfo :=
  if max_history < hist.length then hist.drop (hist.length - max_history)
  else hist

/-- The archived record produced by one `runCompleted` cycle with the
given id. -/
def completedRecord (freshId : Str) : TTSRequestInfo :=
  { request_id := freshId
    status := .completed
    start_time := 0
    end_time := some 0
    text_length := 0
    text_preview := []
    voice_source := "default".toList
    parameters := {}
    progress := { current_step := "Audio generation completed".toList }
    error_message := none
    memory_usage := [] }

/-- Repeated GENERATING_AUDIO updates with a fixed total, returning every
intermediate manager state (most recent last). -/
def genStates (now : ℚ) (rid : Str) (t : Nat) :
    TTSStatusManager → List Nat → List TTSStatusManager
  | _, [] => []
  | m, c :: cs =>
    let m2 := m.update_status now rid .generating_audio [] (some c) (some t)
      none none
    m2 :: genStates now rid t m2 cs

/-- Progress percentage of the live record (0 with no live record). -/
def livePercentage (m : TTSStatusManager) : ℚ :=
  match m.current_request with
  | none => 0
  | some r => r.progress.progress_percentage

/-! ### Discrete-event (SSE) streaming encoder.

Modelled from the spec: the SSE delivery mode of section 4.4 is not among
the provided sources (only the `stream_format` validator in
app/models/requests.py and the tests reference it), so the encoder is
modelled from the spec sentence: one `speech.audio.delta` event per chunk
carrying base64 of the raw chunk bytes, then exactly one terminal
`speech.audio.done` event carrying usage token counts. -/

/-- The base64 alphabet (RFC 4648). -/
def base64Chars : Str :=
  "ABCDEFGHIJKLMNOPQRSTUVWXYZabcdefghijklmnopqrstuvwxyz0123456789+/".toList

/-- Character for one 6-bit group. -/
def base64Char (n : Nat) : Char := base64Chars.getD n 'A'

/-- Standard base64 of a byte list (bytes are naturals below 256). -/
def base64Encode : List Nat → Str
  | [] => []
  | [b1] =>
    [base64Char (b1 / 4), base64Char (b1 % 4 * 16), '=', '=']
  | [b1, b2] =>
    [base64Char (b1 / 4), base64Char (b1 % 4 * 16 + b2 / 16),
     base64Char (b2 % 16 * 4), '=']
  | b1 :: b2 :: b3 :: rest =>
    base64Char (b1 / 4) :: base64Char (b1 % 4 * 16 + b2 / 16) ::
      base64Char (b2 % 16 * 4 + b3 / 64) :: base64Char (b3 % 64) ::
      base64Encode rest

/-- Modelled from the spec: one streamed server-push event of the
discrete-event mode (section 4.4). -/
inductive SSEEvent
  | delta (audio : Str)
  | eventDone (input_tokens output_tokens total_tokens : Nat)
deriving DecidableEq

/-- Whether an event is the terminal done event. -/
def SSEEvent.isDone : SSEEvent → Bool
  | .delta _ => false
  | .eventDone _ _ _ => true

/-- Modelled from the spec: the discrete-event generation loop, emitting one
delta per chunk in order and then the single terminal done event. -/
def sse_encode (usage : Nat × Nat × Nat) : List (List Nat) → List SSEEvent
  | [] => [.eventDone usage.1 usage.2.1 usage.2.2]
  | c :: rest => .delta (base64Encode c) :: sse_encode usage rest

/-- Shape of the manager along the happy path of one pipeline run: a live
record carrying the request id, the original history, and the bumped
request counter. -/
def LiveAs (m m0 : TTSStatusManager) (rid : Str) : Prop :=
  (∃ r, m.current_request = some r ∧ r.request_id = rid) ∧
  m.request_history = m0.request_history ∧
  m.total_requests = m0.total_requests + 1

/-- Concrete environment for the over-length rejection scenario: limit 10,
engine loaded, memory monitoring off. -/
def envC4 : GenEnv :=
  { modelLoaded := true, enableMemoryMonitoring := false, memInfo := [],
    maxTotalLength := 10, maxChunkLength := 5, sr := 100,
    gen := fun _ _ => .ok [0], freshId := "abc12345".toList, now := 0,
    voiceSamplePath := "p".toList, configVoicePath := "p".toList }

/-- Concrete environment for the mid-stream failure scenario: the second
and later inference calls fail. -/
def envC5 : GenEnv :=
  { modelLoaded := true, enableMemoryMonitoring := false, memInfo := [],
    maxTotalLength := 3000, maxChunkLength := 6, sr := 100,
    gen := fun i _ => if i = 0 then .ok [1, 2] else .error "boom".toList,
    freshId := "abc12345".toList, now := 0,
    voiceSamplePath := "p".toList, configVoicePath := "p".toList }

/-! ## Theorems -/

/-! ### Generic helper lemmas -/

theorem dropWhile_length_le {α : Type} (p : α → Bool) (l : List α) :
    (l.dropWhile p).length ≤ l.length := by
  induction l with
  | nil => simp
  | cons a l ih =>
    rw [List.dropWhile_cons]
    split
    · exact Nat.le_trans ih (by simp)
    · simp

theorem pyStrip_length_le (s : Str) : (pyStrip s).length ≤ s.length := by
  unfold pyStrip
  calc ((s.dropWhile pyIsSpace).reverse.dropWhile pyIsSpace).reverse.length
      = ((s.dropWhile pyIsSpace).reverse.dropWhile pyIsSpace).length := by
        simp
    _ ≤ (s.dropWhile pyIsSpace).reverse.length := dropWhile_length_le _ _
    _ = (s.dropWhile pyIsSpace).length := by simp
    _ ≤ s.length := dropWhile_length_le _ _

theorem sliceEveryAux_mem_length (n : Nat) (hn : 1 ≤ n) :
    ∀ (w : Str) (k : Nat) (acc c : Str), acc.length + k ≤ n →
      c ∈ sliceEveryAux n k acc w → c.length ≤ n := by
  intro w
  induction w with
  | nil =>
    intro k acc c hacc hc
    unfold sliceEveryAux at hc
    by_cases h : acc.isEmpty <;> simp [h] at hc
    subst hc
    simp
    omega
  | cons d rest ih =>
    intro k acc c hacc hc
    match k with
    | 0 =>
      unfold sliceEveryAux at hc
      rcases List.mem_cons.mp hc with h | h
      · subst h
        simp
        omega
      · exact ih (n - 1) [d] c
          (by simp only [List.length_cons, List.length_nil]; omega) h
    | Nat.succ k2 =>
      unfold sliceEveryAux at hc
      exact ih k2 (d :: acc) c
        (by simp only [List.length_cons]; omega) hc

theorem sliceEvery_mem_length (n : Nat) (w : Str) :
    ∀ c ∈ sliceEvery n w, c.length ≤ n := by
  intro c hc
  unfold sliceEvery at hc
  by_cases h : n = 0
  · simp [h] at hc
  · simp only [h, if_false] at hc
    exact sliceEveryAux_mem_length n (by omega) w n [] c
      (by simp only [List.length_nil]; omega) hc

theorem foldl_preserves {α β : Type} (P : β → Prop) (f : β → α → β)
    (l : List α) (init : β) (h0 : P init)
    (hstep : ∀ b a, a ∈ l → P b → P (f b a)) : P (l.foldl f init) := by
  induction l generalizing init with
  | nil => exact h0
  | cons a l ih =>
    exact ih (f init a) (hstep init a (by simp) h0)
      (fun b x hx hb => hstep b x (by simp [hx]) hb)

/-! ### C3: audio concatenation -/

theorem concat_fold_length (silence : List Int) (cs : List (List Int)) :
    ∀ c : List Int,
      (cs.foldl (fun acc chunk => acc ++ silence ++ chunk) c).length =
        c.length + (cs.map List.length).sum + cs.length * silence.length := by
  induction cs with
  | nil => intro c; simp
  | cons d cs ih =>
    intro c
    rw [List.foldl_cons, ih]
    simp [Nat.mul_add, Nat.mul_comm]
    ring

/-- C3 counterexample: at sample rate 15 the code inserts
`int(0.1 * 15) = 1` silence sample between two one-sample chunks (total
length 3), while the claimed `round(0.1 x 15) = 2` would predict 4. -/
theorem C3_counterexample :
    ¬ (((concatenate_audio_chunks [[0], [0]] 15).length : ℤ) =
        1 + 1 + round ((1 : ℚ) / 10 * 15)) := by
  have h1 : (concatenate_audio_chunks [[0], [0]] 15).length = 3 := by rfl
  have h2 : round ((1 : ℚ) / 10 * 15) = 2 := by norm_num [round_eq]
  rw [h1, h2]
  decide

/-- C3 amended: a single chunk is returned unchanged, and for n > 1 chunks
the output length is the sum of the chunk lengths plus
(n - 1) * (sr / 10) silence samples, where sr / 10 is the truncation
int(0.1 * sr) computed by the code (not round). -/
theorem C3_amended :
    (∀ (c : List Int) (sr : Nat), concatenate_audio_chunks [c] sr = c) ∧
    (∀ (c : List Int) (cs : List (List Int)) (sr : Nat), cs ≠ [] →
      (concatenate_audio_chunks (c :: cs) sr).length =
        ((c :: cs).map List.length).sum + cs.length * (sr / 10)) := by
  constructor
  · intro c sr; rfl
  · intro c cs sr hcs
    match cs, hcs with
    | d :: cs2, _ =>
      show ((d :: cs2).foldl (fun acc chunk => acc ++
          List.replicate (sr / 10) 0 ++ chunk) c).length = _
      rw [concat_fold_length]
      simp
      try ring

/-- C3 amended witness at two one-sample chunks and sample rate 15. -/
theorem C3_amended_witness :
    concatenate_audio_chunks [[7]] 44100 = [7] ∧
    (concatenate_audio_chunks [[1, 2], [3]] 15).length =
      (([[1, 2], [3]] : List (List Int)).map List.length).sum + 1 * (15 / 10) :=
  ⟨C3_amended.1 [7] 44100, C3_amended.2 [1, 2] [[3]] 15 (by decide)⟩

/-! ### C7: stale-id updates are dropped -/

theorem update_mismatch_noop (m : TTSStatusManager) (now : ℚ)
    (rid : Str) (status : TTSStatus) (step : Str) (c t : Option Nat)
    (mu : Option (List (Str × ℚ))) (em : Option Str)
    (h : ∀ r, m.current_request = some r → r.request_id ≠ rid) :
    m.update_status now rid status step c t mu em = m := by
  unfold TTSStatusManager.update_status
  cases hcur : m.current_request with
  | none => rfl
  | some r => simp [h r hcur]

/-- C7: an update whose requestId does not match the live record (or that
arrives when no live record exists) leaves the whole manager state, history
ring included, unchanged. -/
theorem C7_mismatched_update_noop (m : TTSStatusManager) (now : ℚ)
    (rid : Str) (status : TTSStatus) (step : Str) (c t : Option Nat)
    (mu : Option (List (Str × ℚ))) (em : Option Str)
    (h : ∀ r, m.current_request = some r → r.request_id ≠ rid) :
    m.update_status now rid status step c t mu em = m :=
  update_mismatch_noop m now rid status step c t mu em h

/-- C7 witness: a concrete live record with id "abc12345" and an update
carrying id "zzzz" leave the manager unchanged. -/
theorem C7_mismatched_update_noop_witness :
    (TTSStatusManager.update_status
      { current_request := some
          { request_id := "abc12345".toList, status := .generating_audio,
            start_time := 0 }
        request_history := [], total_requests := 1 }
      5 "zzzz".toList .error [] (some 3) (some 4) none
      (some "late".toList)) =
    { current_request := some
        { request_id := "abc12345".toList, status := .generating_audio,
          start_time := 0 }
      request_history := [], total_requests := 1 } :=
  C7_mismatched_update_noop _ 5 _ .error [] (some 3) (some 4) none
    (some "late".toList) (by decide)

/-! ### C9: discrete-event streaming shape (spec-modelled) -/

theorem sse_encode_eq (usage : Nat × Nat × Nat) (chunks : List (List Nat)) :
    sse_encode usage chunks =
      chunks.map (fun c => SSEEvent.delta (base64Encode c)) ++
        [SSEEvent.eventDone usage.1 usage.2.1 usage.2.2] := by
  induction chunks with
  | nil => rfl
  | cons c rest ih => simp [sse_encode, ih]

/-- C9: in discrete-event (sse) mode with n chunks the emitted sequence is
exactly n `speech.audio.delta` events, the i-th carrying base64 of the i-th
chunk's raw bytes, followed by exactly one terminal `speech.audio.done`
event carrying the usage counts, with nothing after it. -/
theorem C9_sse_event_shape (usage : Nat × Nat × Nat)
    (chunks : List (List Nat)) :
    (sse_encode usage chunks).length = chunks.length + 1 ∧
    (∀ i : Nat, i < chunks.length →
      (sse_encode usage chunks).get? i =
        some (.delta (base64Encode (chunks.getD i [])))) ∧
    (sse_encode usage chunks).get? chunks.length =
      some (.eventDone usage.1 usage.2.1 usage.2.2) ∧
    ((sse_encode usage chunks).filter SSEEvent.isDone).length = 1 := by
  have he : sse_encode usage chunks =
      chunks.map (fun c => SSEEvent.delta (base64Encode c)) ++
        [SSEEvent.eventDone usage.1 usage.2.1 usage.2.2] :=
    sse_encode_eq usage chunks
  refine ⟨?_, ?_, ?_, ?_⟩
  · rw [he]; simp
  · intro i hi
    rw [he, List.get?_append (by simpa using hi), List.get?_map]
    have : chunks.get? i = some (chunks.getD i []) := by
      rw [List.getD_eq_getElem?_getD, List.get?_eq_getElem?]
      cases h : chunks[i]? with
      | none => exact absurd (List.getElem?_eq_none_iff.mp h) (by omega)
      | some v => rfl
    rw [this]
    rfl
  · rw [he, List.get?_append_right (by simp)]
    simp
  · rw [he, List.filter_append]
    have : (chunks.map (fun c => SSEEvent.delta (base64Encode c))).filter
        SSEEvent.isDone = [] := by
      rw [List.filter_eq_nil]
      intro a ha
      rcases List.mem_map.mp ha with ⟨c, _, hc⟩
      rw [← hc]
      simp [SSEEvent.isDone]
    rw [this]
    rfl

/-- C9 witness: two concrete byte chunks produce delta("YQ=="),
delta("YWI="), then the single done event. -/
theorem C9_sse_event_shape_witness :
    (sse_encode (13, 9, 22) [[97], [97, 98]]).length = 2 + 1 ∧
    (sse_encode (13, 9, 22) [[97], [97, 98]]).get? 0 =
      some (.delta (base64Encode [97])) ∧
    (sse_encode (13, 9, 22) [[97], [97, 98]]).get? 2 =
      some (.eventDone 13 9 22) := by
  have h := C9_sse_event_shape (13, 9, 22) [[97], [97, 98]]
  exact ⟨h.1, h.2.1 0 (by decide), h.2.2.1⟩

/-! ### C8: bounded history ring -/

theorem trimHistory_eq_drop (l : List TTSRequestInfo) :
    trimHistory l = l.drop (l.length - max_history) := by
  unfold trimHistory
  split
  · rfl
  · rw [Nat.sub_eq_zero_of_le (by omega), List.drop_zero]

theorem drop_append_last {α : Type} (u v : List α) (H : Nat)
    (h : H ≤ v.length) :
    (u ++ v).drop ((u ++ v).length - H) = v.drop (v.length - H) := by
  have hlen : (u ++ v).length = u.length + v.length := List.length_append u v
  rw [List.drop_append_eq_append_drop]
  have h1 : u.drop ((u ++ v).length - H) = [] :=
    List.drop_eq_nil_of_le (by omega)
  rw [h1, List.nil_append]
  congr 1
  omega

theorem trim_trim_append (a b : List TTSRequestInfo) :
    trimHistory (trimHistory a ++ b) = trimHistory (a ++ b) := by
  by_cases h : a.length ≤ max_history
  · rw [trimHistory_eq_drop a, Nat.sub_eq_zero_of_le h, List.drop_zero]
  · rw [trimHistory_eq_drop a, trimHistory_eq_drop, trimHistory_eq_drop]
    have hsplit : a ++ b =
        a.take (a.length - max_history) ++
          (a.drop (a.length - max_history) ++ b) := by
      rw [← List.append_assoc, List.take_append_drop]
    rw [hsplit, drop_append_last (a.take (a.length - max_history))
      (a.drop (a.length - max_history) ++ b) max_history
      (by simp only [List.length_append, List.length_drop]; omega)]

theorem finalize_eq (m : TTSStatusManager) (r : TTSRequestInfo)
    (h : m.current_request = some r) :
    m.finalize_request =
      { m with
          request_history := trimHistory (m.request_history ++ [r])
          current_request := none } := by
  unfold TTSStatusManager.finalize_request trimHistory
  rw [h]

theorem trimHistory_length (l : List TTSRequestInfo) :
    (trimHistory l).length = min l.length max_history := by
  rw [trimHistory_eq_drop, List.length_drop]
  omega

theorem runCompleted_eq (m : TTSStatusManager) (freshId : Str) :
    runCompleted m freshId =
      { current_request := none
        request_history :=
          trimHistory (m.request_history ++ [completedRecord freshId])
        total_requests := m.total_requests + 1 } := by
  have hstep : (("Audio generation completed".toList : Str)).isEmpty = false :=
    by decide
  unfold runCompleted TTSStatusManager.start_request startRecord
    TTSStatusManager.update_status
  simp only [ne_eq, not_true_eq_false, if_false, hstep, Bool.false_eq_true,
    not_false_eq_true, if_true]
  rw [finalize_eq _ _ rfl]
  rfl

theorem history_foldl_runCompleted (ids : List Str) :
    ∀ m : TTSStatusManager, m.request_history.length ≤ max_history →
      (ids.foldl runCompleted m).request_history =
        trimHistory (m.request_history ++ ids.map completedRecord) := by
  induction ids with
  | nil =>
    intro m hm
    rw [List.map_nil, List.append_nil, List.foldl_nil, trimHistory_eq_drop,
      Nat.sub_eq_zero_of_le hm, List.drop_zero]
  | cons i ids ih =>
    intro m hm
    rw [List.foldl_cons, runCompleted_eq]
    have h2 := ih
      { current_request := none
        request_history :=
          trimHistory (m.request_history ++ [completedRecord i])
        total_requests := m.total_requests + 1 }
      (by rw [trimHistory_length]; omega)
    rw [h2]
    show trimHistory (trimHistory (m.request_history ++ [completedRecord i]) ++
      ids.map completedRecord) = _
    rw [trim_trim_append, List.append_assoc]
    rfl

theorem pyLastSlice_reverse {α : Type} (l : List α) (k : Nat) (hk : 0 < k) :
    (pyLastSlice l k).reverse = l.reverse.take k := by
  unfold pyLastSlice
  rw [if_neg (by omega), List.reverse_drop]
  by_cases h : k ≤ l.length
  · congr 1
    omega
  · have h1 : l.length - (l.length - k) = l.length := by omega
    rw [h1, List.take_of_length_le (by simp),
      List.take_of_length_le (by simp; omega)]

/-- C8: after more than 10 completed requests the history ring holds exactly
the 10 most recent finalized records in order (oldest evicted), and
`get_request_history limit` (for a positive limit) is the most-recent-first
prefix of length `limit` of that ring. -/
theorem C8_history_ring (ids : List Str) (h : max_history < ids.length) :
    let m := ids.foldl runCompleted ({} : TTSStatusManager)
    m.request_history =
      (ids.map completedRecord).drop (ids.length - max_history) ∧
    m.request_history.length = max_history ∧
    (∀ limit, 0 < limit →
      m.get_request_history limit = m.request_history.reverse.take limit) := by
  intro m
  have hh : m.request_history =
      trimHistory (([] : List TTSRequestInfo) ++ ids.map completedRecord) :=
    history_foldl_runCompleted ids {} (by simp [max_history])
  rw [List.nil_append] at hh
  refine ⟨?_, ?_, ?_⟩
  · rw [hh, trimHistory_eq_drop, List.length_map]
  · rw [hh, trimHistory_length, List.length_map]
    omega
  · intro limit hlim
    unfold TTSStatusManager.get_request_history
    rw [pyLastSlice_reverse _ _ hlim]

/-- C8 witness: eleven completed requests leave exactly the last ten
records, and a three-element most-recent-first slice. -/
theorem C8_history_ring_witness :
    let ids := ["r01".toList, "r02".toList, "r03".toList, "r04".toList,
      "r05".toList, "r06".toList, "r07".toList, "r08".toList, "r09".toList,
      "r10".toList, "r11".toList]
    let m := ids.foldl runCompleted ({} : TTSStatusManager)
    m.request_history =
      (ids.map completedRecord).drop (ids.length - max_history) ∧
    m.request_history.length = max_history ∧
    m.get_request_history 3 = m.request_history.reverse.take 3 := by
  intro ids m
  have h := C8_history_ring ids (by decide)
  exact ⟨h.1, h.2.1, h.2.2 3 (by decide)⟩

/-! ### Characterization of update_status -/

theorem updateRecord_status (now : ℚ) (status : TTSStatus) (step : Str)
    (c t : Option Nat) (mu : Option (List (Str × ℚ))) (em : Option Str)
    (r0 : TTSRequestInfo) :
    (updateRecord now status step c t mu em r0).status = status := by
  cases c <;> cases t <;> cases mu <;> cases em <;>
    simp only [updateRecord] <;> repeat' split
  all_goals rfl

theorem updateRecord_request_id (now : ℚ) (status : TTSStatus) (step : Str)
    (c t : Option Nat) (mu : Option (List (Str × ℚ))) (em : Option Str)
    (r0 : TTSRequestInfo) :
    (updateRecord now status step c t mu em r0).request_id =
      r0.request_id := by
  cases c <;> cases t <;> cases mu <;> cases em <;>
    simp only [updateRecord] <;> repeat' split
  all_goals rfl

theorem updateRecord_chunks (now : ℚ) (status : TTSStatus) (step : Str)
    (c t : Nat) (mu : Option (List (Str × ℚ))) (em : Option Str)
    (r0 : TTSRequestInfo) :
    (updateRecord now status step (some c) (some t) mu em
        r0).progress.current_chunk = c ∧
    (updateRecord now status step (some c) (some t) mu em
        r0).progress.total_chunks = t := by
  cases mu <;> cases em <;>
    simp only [updateRecord] <;> repeat' split
  all_goals exact ⟨rfl, rfl⟩

theorem updateRecord_error_message (now : ℚ) (status : TTSStatus) (step : Str)
    (c t : Option Nat) (mu : Option (List (Str × ℚ))) (msg : Str)
    (hmsg : ¬msg.isEmpty) (r0 : TTSRequestInfo) :
    (updateRecord now status step c t mu (some msg) r0).error_message =
      some msg := by
  cases c <;> cases t <;> cases mu <;>
    simp only [updateRecord, hmsg, if_true, not_false_eq_true] <;>
    repeat' split
  all_goals first | rfl | simp_all

theorem update_status_match_nonterminal (m : TTSStatusManager) (now : ℚ)
    (rid : Str) (status : TTSStatus) (step : Str) (c t : Option Nat)
    (mu : Option (List (Str × ℚ))) (em : Option Str) (r0 : TTSRequestInfo)
    (hcur : m.current_request = some r0) (hid : r0.request_id = rid)
    (hnt : ¬(status = .completed ∨ status = .error)) :
    m.update_status now rid status step c t mu em =
      { m with current_request := some (updateRecord now status step c t mu em r0) } := by
  unfold TTSStatusManager.update_status
  rw [hcur]
  dsimp only
  rw [if_neg (by rw [hid]; exact fun h => h rfl), if_neg hnt]

theorem update_status_match_terminal (m : TTSStatusManager) (now : ℚ)
    (rid : Str) (status : TTSStatus) (step : Str) (c t : Option Nat)
    (mu : Option (List (Str × ℚ))) (em : Option Str) (r0 : TTSRequestInfo)
    (hcur : m.current_request = some r0) (hid : r0.request_id = rid)
    (ht : status = .completed ∨ status = .error) :
    m.update_status now rid status step c t mu em =
      { m with
          current_request := none
          request_history := trimHistory (m.request_history ++
            [{ updateRecord now status step c t mu em r0 with
                end_time := some now }]) } := by
  unfold TTSStatusManager.update_status
  rw [hcur]
  dsimp only
  rw [if_neg (by rw [hid]; exact fun h => h rfl), if_pos ht,
    finalize_eq _ _ rfl]

theorem update_status_total (m : TTSStatusManager) (now : ℚ)
    (rid : Str) (status : TTSStatus) (step : Str) (c t : Option Nat)
    (mu : Option (List (Str × ℚ))) (em : Option Str) :
    (m.update_status now rid status step c t mu em).total_requests =
      m.total_requests := by
  unfold TTSStatusManager.update_status
  cases hcur : m.current_request with
  | none => rfl
  | some r0 =>
    dsimp only
    by_cases hid : r0.request_id ≠ rid
    · rw [if_pos hid]
    · rw [if_neg hid]
      split
      · rw [finalize_eq _ _ rfl]
      · rfl

/-! ### C10: terminal updates finalize immediately; the live record is
never terminal -/

theorem liveNotTerminal_applyOp (m : TTSStatusManager) (op : MgrOp)
    (hm : ∀ r, m.current_request = some r →
      r.status ≠ .completed ∧ r.status ≠ .error) :
    ∀ r, (applyOp m op).current_request = some r →
      r.status ≠ .completed ∧ r.status ≠ .error := by
  cases op with
  | start freshId now text voice params =>
    intro r hr
    unfold applyOp TTSStatusManager.start_request at hr
    simp only [Option.some.injEq] at hr
    rw [← hr]
    constructor <;> intro h <;> cases h
  | clearHistory =>
    intro r hr
    exact hm r hr
  | update now rid status step c t mu em =>
    intro r hr
    have happ : applyOp m (.update now rid status step c t mu em) =
        m.update_status now rid status step c t mu em := rfl
    rw [happ] at hr
    cases hcur : m.current_request with
    | none =>
      rw [update_mismatch_noop m now rid status step c t mu em
        (by intro x hx; rw [hcur] at hx; cases hx)] at hr
      rw [hcur] at hr
      cases hr
    | some r0 =>
      by_cases hid : r0.request_id = rid
      · by_cases hterm : status = .completed ∨ status = .error
        · rw [update_status_match_terminal m now rid status step c t mu em r0
              hcur hid hterm] at hr
          cases hr
        · rw [update_status_match_nonterminal m now rid status step c t mu em
              r0 hcur hid hterm] at hr
          simp only [Option.some.injEq] at hr
          rw [← hr, updateRecord_status]
          constructor
          · intro h; exact hterm (Or.inl h)
          · intro h; exact hterm (Or.inr h)
      · rw [update_mismatch_noop m now rid status step c t mu em
            (by intro x hx; rw [hcur] at hx; cases hx; exact hid)] at hr
        exact hm r hr

/-- C10: the live record is never in a terminal state after any operation
sequence from the fresh manager, and a matching update with a terminal
status (COMPLETED or ERROR) sets the record's end time, archives it into the
trimmed history, clears the current-record pointer, and makes the very next
snapshot return the IDLE sentinel. -/
theorem C10_terminal_update_finalizes :
    (∀ ops : List MgrOp, ∀ r,
      (applyOps {} ops).current_request = some r →
        r.status ≠ .completed ∧ r.status ≠ .error) ∧
    (∀ (m : TTSStatusManager) (now : ℚ) (rid : Str) (status : TTSStatus)
      (step : Str) (c t : Option Nat) (mu : Option (List (Str × ℚ)))
      (em : Option Str) (r0 : TTSRequestInfo),
      m.current_request = some r0 → r0.request_id = rid →
      (status = .completed ∨ status = .error) →
      (m.update_status now rid status step c t mu em).current_request =
        none ∧
      (m.update_status now rid status step c t mu em).get_current_status =
        .idleSentinel m.total_requests ∧
      ∃ r, (m.update_status now rid status step c t mu em).request_history =
          trimHistory (m.request_history ++ [r]) ∧
        r.end_time = some now ∧ r.status = status) := by
  constructor
  · intro ops
    unfold applyOps
    exact foldl_preserves
      (fun m => ∀ r, m.current_request = some r →
        r.status ≠ .completed ∧ r.status ≠ .error)
      applyOp ops {} (by intro r hr; cases hr)
      (fun m op _ hm => liveNotTerminal_applyOp m op hm)
  · intro m now rid status step c t mu em r0 hcur hid hterm
    rw [update_status_match_terminal m now rid status step c t mu em r0
      hcur hid hterm]
    refine ⟨rfl, rfl, ⟨_, rfl, rfl, ?_⟩⟩
    exact updateRecord_status now status step c t mu em r0

/-- C10 witness: after a concrete start and one GENERATING_AUDIO update the
live record is non-terminal; a COMPLETED update on a concrete live manager
clears the pointer, snapshots IDLE, and archives a record with its end time
set. -/
theorem C10_terminal_update_finalizes_witness :
    (({ request_id := "ab".toList, status := .generating_audio,
        start_time := 0, progress := { current_chunk := 0, total_chunks := 2 }
        } : TTSRequestInfo).status ≠ .completed ∧
     ({ request_id := "ab".toList, status := .generating_audio,
        start_time := 0, progress := { current_chunk := 0, total_chunks := 2 }
        } : TTSRequestInfo).status ≠ .error) ∧
    (let mW : TTSStatusManager :=
      { current_request := some
          { request_id := "ab".toList, status := .generating_audio,
            start_time := 0 }
        request_history := []
        total_requests := 1 }
    (mW.update_status 3 "ab".toList .completed [] none none none
        none).current_request = none ∧
    (mW.update_status 3 "ab".toList .completed [] none none none
        none).get_current_status = .idleSentinel 1 ∧
    ∃ r, (mW.update_status 3 "ab".toList .completed [] none none none
        none).request_history = trimHistory (mW.request_history ++ [r]) ∧
      r.end_time = some 3 ∧ r.status = .completed) := by
  constructor
  · exact C10_terminal_update_finalizes.1
      [.start "ab".toList 0 [] "default".toList {},
       .update 0 "ab".toList .generating_audio [] (some 0) (some 2) none none]
      { request_id := "ab".toList, status := .generating_audio,
        start_time := 0, progress := { current_chunk := 0, total_chunks := 2 } }
      (by decide)
  · intro mW
    exact C10_terminal_update_finalizes.2 mW 3 "ab".toList .completed []
      none none none none
      { request_id := "ab".toList, status := .generating_audio,
        start_time := 0 }
      rfl rfl (Or.inl rfl)

/-! ### C6: progress percentage -/

theorem genStates_livePercentage (now : ℚ) (rid : Str) (t : Nat) :
    ∀ (cs : List Nat) (m : TTSStatusManager) (r0 : TTSRequestInfo),
      m.current_request = some r0 → r0.request_id = rid →
      (genStates now rid t m cs).map livePercentage =
        cs.map (fun c : Nat => if t = 0 then (0 : ℚ) else (c : ℚ) / (t : ℚ) * 100) := by
  intro cs
  induction cs with
  | nil => intros; rfl
  | cons c cs ih =>
    intro m r0 hcur hid
    have hnt : ¬((TTSStatus.generating_audio) = .completed ∨
        (TTSStatus.generating_audio) = .error) := by
      intro h; rcases h with h | h <;> cases h
    have hupd := update_status_match_nonterminal m now rid .generating_audio
      [] (some c) (some t) none none r0 hcur hid hnt
    unfold genStates
    rw [List.map_cons, List.map_cons, hupd]
    have hchunks := updateRecord_chunks now .generating_audio [] c t none
      none r0
    congr 1
    · show (updateRecord now .generating_audio [] (some c) (some t) none
        none r0).progress.progress_percentage = _
      unfold TTSProgressInfo.progress_percentage
      rw [hchunks.1, hchunks.2]
    · rw [← hupd]
      exact ih _ (updateRecord now .generating_audio [] (some c) (some t)
          none none r0)
        (by rw [hupd]) (by rw [updateRecord_request_id]; exact hid)

/-- C6 counterexample: successive matching updates with currentChunk 2 then
1 (totalChunks fixed at 2) drive progress_percentage from 100 down to 50, so
progress is not monotonically non-decreasing across every sequence of
successive update calls. -/
theorem C6_counterexample :
    ¬ (((genStates 0 "ab".toList 2
        { current_request := some
            { request_id := "ab".toList, status := .generating_audio,
              start_time := 0 }
          request_history := [], total_requests := 1 }
        [2, 1]).map livePercentage).Chain' (· ≤ ·)) := by
  intro h
  have hmap := genStates_livePercentage 0 "ab".toList 2 [2, 1]
    { current_request := some
        { request_id := "ab".toList, status := .generating_audio,
          start_time := 0 }
      request_history := [], total_requests := 1 }
    { request_id := "ab".toList, status := .generating_audio,
      start_time := 0 }
    rfl rfl
  rw [hmap] at h
  simp only [List.map_cons, List.map_nil] at h
  have h1 := (List.chain'_cons.mp h).1
  norm_num at h1

/-- C6 amended: progress_percentage equals currentChunk/totalChunks x 100
(0 when totalChunks = 0) after every matching GENERATING_AUDIO update, so
across updates whose currentChunk arguments are non-decreasing (with a fixed
totalChunks) the percentage is non-decreasing, and it reaches 100 when the
last currentChunk equals totalChunks > 0.  Monotonicity holds only for
non-decreasing update arguments: the manager itself does not enforce it. -/
theorem C6_amended (now : ℚ) (rid : Str) (t : Nat) (m : TTSStatusManager)
    (r0 : TTSRequestInfo) (hcur : m.current_request = some r0)
    (hid : r0.request_id = rid) (cs : List Nat)
    (hmono : cs.Chain' (· ≤ ·)) :
    (genStates now rid t m cs).map livePercentage =
      cs.map (fun c : Nat => if t = 0 then (0 : ℚ) else (c : ℚ) / (t : ℚ) * 100) ∧
    ((genStates now rid t m cs).map livePercentage).Chain' (· ≤ ·) ∧
    (cs.getLast? = some t → t ≠ 0 →
      ((genStates now rid t m cs).map livePercentage).getLast? =
        some 100) := by
  have hmap := genStates_livePercentage now rid t cs m r0 hcur hid
  have hf : ∀ a b : Nat, a ≤ b →
      (if t = 0 then (0 : ℚ) else (a : ℚ) / (t : ℚ) * 100) ≤
        (if t = 0 then (0 : ℚ) else (b : ℚ) / (t : ℚ) * 100) := by
    intro a b hab
    by_cases ht : t = 0
    · simp [ht]
    · have htpos : (0 : ℚ) < (t : ℚ) := by
        exact_mod_cast Nat.pos_of_ne_zero ht
      simp only [ht, if_false]
      have h1 : (a : ℚ) / (t : ℚ) ≤ (b : ℚ) / (t : ℚ) :=
        (div_le_div_right htpos).mpr (by exact_mod_cast hab)
      exact mul_le_mul_of_nonneg_right h1 (by norm_num)
  refine ⟨hmap, ?_, ?_⟩
  · rw [hmap, List.chain'_map]
    exact hmono.imp (fun a b h => hf a b h)
  · intro hlast ht
    rw [hmap, List.getLast?_map, hlast]
    have h100 : ((t : Nat) : ℚ) / (t : ℚ) * 100 = 100 := by
      rw [div_self (by exact_mod_cast ht), one_mul]
    simp only [ht, if_false]
    rw [Option.map_some', h100]

/-- C6 amended witness: starting from a live record with id "ab", updates
with chunks 1 then 2 of 2 give percentages 50 then 100. -/
theorem C6_amended_witness :
    (genStates 0 "ab".toList 2
      { current_request := some
          { request_id := "ab".toList, status := .generating_audio,
            start_time := 0 }
        request_history := [], total_requests := 1 }
      [1, 2]).map livePercentage =
      [1, 2].map (fun c : Nat => if (2 : Nat) = 0 then (0 : ℚ)
        else (c : ℚ) / ((2 : Nat) : ℚ) * 100) ∧
    ((genStates 0 "ab".toList 2
      { current_request := some
          { request_id := "ab".toList, status := .generating_audio,
            start_time := 0 }
        request_history := [], total_requests := 1 }
      [1, 2]).map livePercentage).Chain' (· ≤ ·) ∧
    ((genStates 0 "ab".toList 2
      { current_request := some
          { request_id := "ab".toList, status := .generating_audio,
            start_time := 0 }
        request_history := [], total_requests := 1 }
      [1, 2]).map livePercentage).getLast? = some 100 := by
  have h := C6_amended 0 "ab".toList 2
    { current_request := some
        { request_id := "ab".toList, status := .generating_audio,
          start_time := 0 }
      request_history := [], total_requests := 1 }
    { request_id := "ab".toList, status := .generating_audio,
      start_time := 0 }
    rfl rfl [1, 2]
    (by rw [List.chain'_cons]; exact ⟨by norm_num, List.chain'_singleton _⟩)
  exact ⟨h.1, h.2.1, h.2.2 rfl (by decide)⟩

/-! ### C4: over-length rejection -/

theorem lengthErrorMsg_isEmpty (n : Nat) :
    (lengthErrorMsg n).isEmpty = false := rfl

theorem nonterminal_initializing :
    ¬(TTSStatus.initializing = .completed ∨
      TTSStatus.initializing = .error) := by
  rintro (h | h) <;> cases h

theorem nonterminal_processing :
    ¬(TTSStatus.processing_text = .completed ∨
      TTSStatus.processing_text = .error) := by
  rintro (h | h) <;> cases h

theorem nonterminal_chunking :
    ¬(TTSStatus.chunking = .completed ∨ TTSStatus.chunking = .error) := by
  rintro (h | h) <;> cases h

theorem nonterminal_generating :
    ¬(TTSStatus.generating_audio = .completed ∨
      TTSStatus.generating_audio = .error) := by
  rintro (h | h) <;> cases h

theorem LiveAs_update (m m0 : TTSStatusManager) (rid : Str)
    (h : LiveAs m m0 rid) (now : ℚ) (status : TTSStatus) (step : Str)
    (c t : Option Nat) (mu : Option (List (Str × ℚ))) (em : Option Str)
    (hnt : ¬(status = .completed ∨ status = .error)) :
    LiveAs (m.update_status now rid status step c t mu em) m0 rid := by
  obtain ⟨⟨r, hcur, hid⟩, hh, htot⟩ := h
  rw [update_status_match_nonterminal m now rid status step c t mu em r
    hcur hid hnt]
  exact ⟨⟨_, rfl, by rw [updateRecord_request_id]; exact hid⟩, hh, htot⟩

theorem LiveAs_genStage0 (env : GenEnv) (text : Str)
    (m0 : TTSStatusManager) :
    LiveAs (genStage0 env text m0).1 m0 env.freshId ∧
    (genStage0 env text m0).2 = env.freshId := by
  constructor
  · unfold genStage0 TTSStatusManager.start_request
    dsimp only
    refine LiveAs_update _ m0 env.freshId ?_ _ _ _ _ _ _ _
      nonterminal_initializing
    exact ⟨⟨_, rfl, rfl⟩, rfl, rfl⟩
  · rfl

theorem LiveAs_genStage1 (env : GenEnv) (m m0 : TTSStatusManager)
    (rid : Str) (h : LiveAs m m0 rid) :
    LiveAs (genStage1 env m rid) m0 rid := by
  unfold genStage1
  dsimp only
  refine LiveAs_update _ m0 rid ?_ _ _ _ _ _ _ _ nonterminal_processing
  cases hmon : env.enableMemoryMonitoring
  · rw [if_neg Bool.false_ne_true]
    exact h
  · rw [if_pos rfl]
    exact LiveAs_update m m0 rid h _ _ _ _ _ _ _ nonterminal_initializing

/-- C4 counterexample: an 11-character input against a 10-character limit
is rejected with the length error before any inference call, but the
rejection does have record side effects: the Status Manager archives an
ERROR record for the request (history grows from 0 to 1 entries). -/
theorem C4_counterexample :
    (generate_speech_internal envC4 (List.replicate 11 'a')
      {}).inference_calls = 0 ∧
    (generate_speech_internal envC4 (List.replicate 11 'a') {}).outcome =
      .httpError 400 (lengthErrorMsg 10) "invalid_request_error".toList ∧
    (generate_speech_internal envC4 (List.replicate 11 'a')
      {}).manager.request_history.length = 1 :=
  ⟨rfl, rfl, rfl⟩

/-- C4 amended: an over-length input is rejected with the length validation
error before chunking and before any inference call (zero inference calls),
but the rejection is not free of record side effects: the record created at
request start is finalized as ERROR carrying the length message and archived
into the history ring. -/
theorem C4_amended (env : GenEnv) (text : Str) (m0 : TTSStatusManager)
    (hm : env.modelLoaded = true) (hl : env.maxTotalLength < text.length) :
    (generate_speech_internal env text m0).inference_calls = 0 ∧
    (generate_speech_internal env text m0).outcome =
      .httpError 400 (lengthErrorMsg env.maxTotalLength)
        "invalid_request_error".toList ∧
    (generate_speech_internal env text m0).manager.current_request = none ∧
    ∃ r, (generate_speech_internal env text m0).manager.request_history =
        trimHistory (m0.request_history ++ [r]) ∧
      r.status = .error ∧
      r.error_message = some (lengthErrorMsg env.maxTotalLength) ∧
      r.request_id = env.freshId := by
  obtain ⟨L0, hrid⟩ := LiveAs_genStage0 env text m0
  unfold generate_speech_internal
  dsimp only
  rw [if_neg (fun hcontra => hcontra hm), if_pos hl, hrid]
  have L1 : LiveAs (genStage1 env (genStage0 env text m0).1 env.freshId) m0
      env.freshId := LiveAs_genStage1 env _ m0 env.freshId L0
  obtain ⟨⟨r1, hcur1, hid1⟩, hh1, _⟩ := L1
  rw [update_status_match_terminal _ env.now env.freshId .error [] none none
    none (some (lengthErrorMsg env.maxTotalLength)) r1 hcur1 hid1
    (Or.inr rfl)]
  refine ⟨rfl, rfl, rfl,
    ⟨{ updateRecord env.now .error [] none none none
        (some (lengthErrorMsg env.maxTotalLength)) r1 with
        end_time := some env.now }, ?_, ?_, ?_, ?_⟩⟩
  · rw [hh1]
  · exact updateRecord_status _ _ _ _ _ _ _ _
  · exact updateRecord_error_message env.now .error [] none none none
      (lengthErrorMsg env.maxTotalLength)
      (by rw [lengthErrorMsg_isEmpty]; exact Bool.false_ne_true) r1
  · exact (updateRecord_request_id env.now .error [] none none none
      (some (lengthErrorMsg env.maxTotalLength)) r1).trans hid1

/-- C4 amended witness at the concrete 11-character input. -/
theorem C4_amended_witness :
    (generate_speech_internal envC4 (List.replicate 11 'a')
      {}).inference_calls = 0 ∧
    (generate_speech_internal envC4 (List.replicate 11 'a') {}).outcome =
      .httpError 400 (lengthErrorMsg envC4.maxTotalLength)
        "invalid_request_error".toList ∧
    (generate_speech_internal envC4 (List.replicate 11 'a')
      {}).manager.current_request = none ∧
    ∃ r, (generate_speech_internal envC4 (List.replicate 11 'a')
        {}).manager.request_history =
        trimHistory (([] : List TTSRequestInfo) ++ [r]) ∧
      r.status = .error ∧
      r.error_message = some (lengthErrorMsg envC4.maxTotalLength) ∧
      r.request_id = envC4.freshId :=
  C4_amended envC4 (List.replicate 11 'a') {} rfl (by decide)

/-! ### C5: mid-request inference failure -/

theorem genLoop_fail (env : GenEnv) (rid : Str) (total : Nat) :
    ∀ (rest : List Str) (k i : Nat) (m : TTSStatusManager)
      (acc : List (List Int)) (r0 : TTSRequestInfo),
      m.current_request = some r0 → r0.request_id = rid →
      ∀ (ck e : Str), rest[k]? = some ck →
        env.gen (i + k) ck = .error e →
        (∀ j c, j < k → rest[j]? = some c → (env.gen (i + j) c).isOk) →
        ∃ m2 r2,
          genLoop env rid total i rest m acc = (m2, i + k + 1, .error e) ∧
          m2.current_request = some r2 ∧ r2.request_id = rid ∧
          m2.request_history = m.request_history ∧
          m2.total_requests = m.total_requests := by
  intro rest
  induction rest with
  | nil =>
    intro k i m acc r0 _ _ ck e hck
    simp at hck
  | cons chunk rest ih =>
    intro k i m acc r0 hcur hid ck e hck hfail hok
    have hupd := update_status_match_nonterminal m env.now rid
      .generating_audio (chunkStepMsg (i + 1) total) (some (i + 1))
      (some total) none none r0 hcur hid nonterminal_generating
    unfold genLoop
    rw [hupd]
    match k, hck, hfail, hok with
    | 0, hck, hfail, hok =>
      rw [List.getElem?_cons_zero, Option.some.injEq] at hck
      subst hck
      rw [Nat.add_zero] at hfail
      rw [hfail]
      exact ⟨_, _, rfl, rfl,
        (updateRecord_request_id _ _ _ _ _ _ _ _).trans hid, rfl, rfl⟩
    | Nat.succ k2, hck, hfail, hok =>
      have hok0 := hok 0 chunk (Nat.succ_pos k2) List.getElem?_cons_zero
      rw [Nat.add_zero] at hok0
      cases hgen : env.gen i chunk with
      | error e2 => rw [hgen] at hok0; cases hok0
      | ok w =>
        dsimp only
        have hck2 : rest[k2]? = some ck := by
          rw [← List.getElem?_cons_succ (a := chunk)]
          exact hck
        have hfail2 : env.gen (i + 1 + k2) ck = .error e := by
          rw [show i + 1 + k2 = i + (k2 + 1) by omega]
          exact hfail
        have hok2 : ∀ j c, j < k2 → rest[j]? = some c →
            (env.gen (i + 1 + j) c).isOk := by
          intro j c hj hc
          rw [show i + 1 + j = i + (j + 1) by omega]
          exact hok (j + 1) c (by omega)
            (by rw [List.getElem?_cons_succ]; exact hc)
        obtain ⟨m2, r2, heq, hcur2, hid2, hh2, htot2⟩ :=
          ih (k2) (i + 1)
            { m with current_request := some (updateRecord env.now
                .generating_audio (chunkStepMsg (i + 1) total) (some (i + 1))
                (some total) none none r0) }
            (acc ++ [w]) _ rfl
            ((updateRecord_request_id _ _ _ _ _ _ _ _).trans hid)
            ck e hck2 hfail2 hok2
        refine ⟨m2, r2, ?_, hcur2, hid2, hh2, htot2⟩
        rw [show i + Nat.succ k2 + 1 = i + 1 + k2 + 1 by omega]
        exact heq

/-- C5: when the k-th inference call of a request fails (2 <= k <= n over
the n chunks of the text), exactly k inference calls are made (the
remaining chunks are never generated), the operation raises the generation
error instead of returning a buffered COMPLETED response, the cleanup block
still runs, and the request's record is finalized as ERROR carrying the
failure message and archived into the history ring. -/
theorem C5_midstream_failure (env : GenEnv) (text : Str)
    (m0 : TTSStatusManager) (hm : env.modelLoaded = true)
    (hlen : text.length ≤ env.maxTotalLength) (k : Nat) (hk2 : 2 ≤ k)
    (ck e : Str)
    (hck : (split_text_into_chunks text env.maxChunkLength)[k - 1]? =
      some ck)
    (hfail : env.gen (k - 1) ck = .error e)
    (hok : ∀ j c, j < k - 1 →
      (split_text_into_chunks text env.maxChunkLength)[j]? = some c →
        (env.gen j c).isOk) :
    (generate_speech_internal env text m0).inference_calls = k ∧
    (generate_speech_internal env text m0).outcome =
      .httpError 500 ("TTS generation failed: ".toList ++ e)
        "generation_error".toList ∧
    (generate_speech_internal env text m0).cleanup_ran = true ∧
    (generate_speech_internal env text m0).manager.current_request = none ∧
    (∀ audio,
      (generate_speech_internal env text m0).outcome ≠ .ok audio) ∧
    ∃ r, (generate_speech_internal env text m0).manager.request_history =
        trimHistory (m0.request_history ++ [r]) ∧
      r.status = .error ∧
      r.error_message =
        some ("TTS generation failed: ".toList ++ e) := by
  obtain ⟨L0, hrid⟩ := LiveAs_genStage0 env text m0
  unfold generate_speech_internal
  dsimp only
  rw [if_neg (fun hcontra => hcontra hm),
    if_neg (Nat.not_lt.mpr hlen), hrid]
  have L1 : LiveAs (genStage1 env (genStage0 env text m0).1 env.freshId) m0
      env.freshId := LiveAs_genStage1 env _ m0 env.freshId L0
  have L2 := LiveAs_update _ m0 env.freshId L1 env.now .chunking
    "Splitting text into chunks".toList none none none none
    nonterminal_chunking
  have L3 := LiveAs_update _ m0 env.freshId L2 env.now .generating_audio
    "Starting audio generation".toList (some 0)
    (some (split_text_into_chunks text env.maxChunkLength).length) none none
    nonterminal_generating
  obtain ⟨⟨r3, hcur3, hid3⟩, hh3, _⟩ := L3
  have hfail0 : env.gen (0 + (k - 1)) ck = .error e := by
    rw [Nat.zero_add]; exact hfail
  have hok0 : ∀ j c, j < k - 1 →
      (split_text_into_chunks text env.maxChunkLength)[j]? = some c →
        (env.gen (0 + j) c).isOk := by
    intro j c hj hc
    rw [Nat.zero_add]
    exact hok j c hj hc
  obtain ⟨m2, r2, heq, hcur2, hid2, hh2, _⟩ := genLoop_fail env env.freshId
    (split_text_into_chunks text env.maxChunkLength).length
    (split_text_into_chunks text env.maxChunkLength) (k - 1) 0 _ [] r3
    hcur3 hid3 ck e hck hfail0 hok0
  rw [heq]
  dsimp only
  rw [update_status_match_terminal m2 env.now env.freshId .error [] none
    none none (some ("TTS generation failed: ".toList ++ e)) r2 hcur2 hid2
    (Or.inr rfl)]
  refine ⟨by omega, rfl, rfl, rfl, ?_,
    ⟨{ updateRecord env.now .error [] none none none
        (some ("TTS generation failed: ".toList ++ e)) r2 with
        end_time := some env.now }, ?_, ?_, ?_⟩⟩
  · intro audio hcontra
    cases hcontra
  · rw [hh2, hh3]
  · exact updateRecord_status _ _ _ _ _ _ _ _
  · exact updateRecord_error_message env.now .error [] none none none
      ("TTS generation failed: ".toList ++ e) (by intro hc; cases hc) r2

/-- C5 witness: "Hello. World." splits into two chunks under a 6-character
chunk limit, the second inference call fails with "boom", and the run makes
exactly 2 calls, raises the generation error, runs cleanup, and archives an
ERROR record. -/
theorem C5_midstream_failure_witness :
    (generate_speech_internal envC5 "Hello. World.".toList
      {}).inference_calls = 2 ∧
    (generate_speech_internal envC5 "Hello. World.".toList {}).outcome =
      .httpError 500 ("TTS generation failed: ".toList ++ "boom".toList)
        "generation_error".toList ∧
    (generate_speech_internal envC5 "Hello. World.".toList
      {}).cleanup_ran = true ∧
    (generate_speech_internal envC5 "Hello. World.".toList
      {}).manager.current_request = none ∧
    (∀ audio, (generate_speech_internal envC5 "Hello. World.".toList
      {}).outcome ≠ .ok audio) ∧
    ∃ r, (generate_speech_internal envC5 "Hello. World.".toList
        {}).manager.request_history =
        trimHistory (([] : List TTSRequestInfo) ++ [r]) ∧
      r.status = .error ∧
      r.error_message =
        some ("TTS generation failed: ".toList ++ "boom".toList) := by
  have h := C5_midstream_failure envC5 "Hello. World.".toList {} rfl
    (by decide) 2 (by decide) "World.".toList "boom".toList (by decide)
    rfl
    (by
      intro j c hj hc
      interval_cases j
      rw [show (split_text_into_chunks "Hello. World.".toList
        envC5.maxChunkLength)[0]? = some "Hello.".toList from by decide] at hc
      injection hc with hc2
      rw [← hc2]
      rfl)
  exact h

/-! ### C1: chunk-length bounds and non-emptiness -/

theorem wordsStep_preserves (n : Nat) (s : List Str × Str) (w : Str)
    (h : (∀ c ∈ s.1, c.length ≤ n) ∧ s.2.length ≤ n) :
    (∀ c ∈ (wordsStep n s w).1, c.length ≤ n) ∧
      (wordsStep n s w).2.length ≤ n := by
  obtain ⟨chunks, cur⟩ := s
  obtain ⟨h1, h2⟩ := h
  dsimp only at h1 h2
  unfold wordsStep
  dsimp only
  split
  case isTrue hlen =>
    refine ⟨h1, ?_⟩
    dsimp only
    split
    case isTrue hemp =>
      rw [List.isEmpty_iff] at hemp
      subst hemp
      simp only [List.length_nil, Nat.zero_add] at hlen
      omega
    case isFalse hemp =>
      have hsp : ((" ".toList : Str)).length = 1 := rfl
      simp only [List.length_append] at *
      omega
  case isFalse hlen =>
    split
    case isTrue hbig =>
      refine ⟨?_, by exact Nat.zero_le n⟩
      intro c hc
      rcases List.mem_append.mp hc with hc | hc
      · split at hc
        · exact h1 c hc
        · rcases List.mem_append.mp hc with hc | hc
          · exact h1 c hc
          · rw [List.mem_singleton.mp hc]
            exact Nat.le_trans (pyStrip_length_le cur) h2
      · exact sliceEvery_mem_length n w c hc
    case isFalse hbig =>
      refine ⟨?_, ?_⟩
      swap
      · show w.length ≤ n
        omega
      intro c hc
      split at hc
      · exact h1 c hc
      · rcases List.mem_append.mp hc with hc | hc
        · exact h1 c hc
        · rw [List.mem_singleton.mp hc]
          exact Nat.le_trans (pyStrip_length_le cur) h2

theorem split_by_words_bound (t : Str) (n : Nat) :
    ∀ c ∈ split_by_words t n, c.length ≤ n ∧ c ≠ [] := by
  intro c hc
  unfold split_by_words at hc
  dsimp only at hc
  have hfold := foldl_preserves
    (fun s : List Str × Str => (∀ c ∈ s.1, c.length ≤ n) ∧ s.2.length ≤ n)
    (wordsStep n) (pyWords t) ([], [])
    ⟨(by intro c hc; cases hc), (by simp)⟩
    (fun b a _ hb => wordsStep_preserves n b a hb)
  constructor
  · have hmem := List.mem_of_mem_filter hc
    split at hmem
    · exact hfold.1 c hmem
    · rcases List.mem_append.mp hmem with hm | hm
      · exact hfold.1 c hm
      · rw [List.mem_singleton.mp hm]
        exact Nat.le_trans (pyStrip_length_le _) hfold.2
  · have hp := List.of_mem_filter hc
    intro hnil
    rw [hnil] at hp
    simp [pyStrip] at hp

theorem longSentenceFinal_bound (n : Nat) (chunks : List Str) :
    ∀ c ∈ chunks.foldl
      (fun fc chunk =>
        if chunk.length ≤ n then fc ++ [chunk]
        else fc ++ split_by_words chunk n) [],
      c.length ≤ n := by
  have hfold := foldl_preserves (fun fc : List Str => ∀ c ∈ fc, c.length ≤ n)
    (fun fc chunk =>
      if chunk.length ≤ n then fc ++ [chunk]
      else fc ++ split_by_words chunk n)
    chunks []
    (by intro c hc; cases hc)
    (by
      intro fc chunk _ hfc c hc
      dsimp only at hc
      split at hc
      · rcases List.mem_append.mp hc with hm | hm
        · exact hfc c hm
        · next hle => rw [List.mem_singleton.mp hm]; exact hle
      · rcases List.mem_append.mp hc with hm | hm
        · exact hfc c hm
        · exact (split_by_words_bound chunk n c hm).1)
  exact hfold

theorem split_long_sentence_bound (s : Str) (n : Nat) :
    ∀ c ∈ split_long_sentence s n, c.length ≤ n ∧ c ≠ [] := by
  intro c hc
  unfold split_long_sentence at hc
  dsimp only at hc
  constructor
  · have hmem := List.mem_of_mem_filter hc
    rcases List.mem_map.mp hmem with ⟨c0, hc0, hstr⟩
    rw [← hstr]
    exact Nat.le_trans (pyStrip_length_le c0)
      (longSentenceFinal_bound n _ c0 hc0)
  · have hp := List.of_mem_filter hc
    intro hnil
    rw [hnil] at hp
    simp at hp

theorem sentencesStep_preserves (n : Nat) (s : List Str × Str)
    (sentence : Str)
    (h : (∀ c ∈ s.1, c.length ≤ n) ∧ s.2.length ≤ n) :
    (∀ c ∈ (sentencesStep n s sentence).1, c.length ≤ n) ∧
      (sentencesStep n s sentence).2.length ≤ n := by
  obtain ⟨chunks, cur⟩ := s
  obtain ⟨h1, h2⟩ := h
  dsimp only at h1 h2
  unfold sentencesStep
  dsimp only
  split
  case isTrue hskip => exact ⟨h1, h2⟩
  case isFalse hskip =>
    split
    case isTrue hlen =>
      refine ⟨h1, ?_⟩
      dsimp only
      split
      case isTrue hemp =>
        rw [List.isEmpty_iff] at hemp
        subst hemp
        simp only [List.length_nil, Nat.zero_add] at hlen
        omega
      case isFalse hemp =>
        have hsp : ((" ".toList : Str)).length = 1 := rfl
        simp only [List.length_append] at *
        omega
    case isFalse hlen =>
      split
      case isTrue hbig =>
        refine ⟨?_, by exact Nat.zero_le n⟩
        intro c hc
        rcases List.mem_append.mp hc with hc | hc
        · split at hc
          · exact h1 c hc
          · rcases List.mem_append.mp hc with hc | hc
            · exact h1 c hc
            · rw [List.mem_singleton.mp hc]
              exact Nat.le_trans (pyStrip_length_le cur) h2
        · exact (split_long_sentence_bound _ n c hc).1
      case isFalse hbig =>
        refine ⟨?_, ?_⟩
        swap
        · show (pyStrip sentence).length ≤ n
          omega
        intro c hc
        split at hc
        · exact h1 c hc
        · rcases List.mem_append.mp hc with hc | hc
          · exact h1 c hc
          · rw [List.mem_singleton.mp hc]
            exact Nat.le_trans (pyStrip_length_le cur) h2

theorem split_by_sentences_bound (t : Str) (n : Nat) :
    ∀ c ∈ split_by_sentences t n, c.length ≤ n ∧ c ≠ [] := by
  intro c hc
  unfold split_by_sentences at hc
  dsimp only at hc
  have hfold := foldl_preserves
    (fun s : List Str × Str => (∀ c ∈ s.1, c.length ≤ n) ∧ s.2.length ≤ n)
    (sentencesStep n) (sentRegexSplit (pyStrip t)) ([], [])
    ⟨(by intro c hc; cases hc), (by simp)⟩
    (fun b a _ hb => sentencesStep_preserves n b a hb)
  constructor
  · have hmem := List.mem_of_mem_filter hc
    split at hmem
    · exact hfold.1 c hmem
    · rcases List.mem_append.mp hmem with hm | hm
      · exact hfold.1 c hm
      · rw [List.mem_singleton.mp hm]
        exact Nat.le_trans (pyStrip_length_le _) hfold.2
  · have hp := List.of_mem_filter hc
    intro hnil
    rw [hnil] at hp
    simp [pyStrip] at hp

theorem paragraphsStep_preserves (n : Nat) (s : List Str × Str)
    (paragraph : Str)
    (h : (∀ c ∈ s.1, c.length ≤ n) ∧ s.2.length ≤ n) :
    (∀ c ∈ (paragraphsStep n s paragraph).1, c.length ≤ n) ∧
      (paragraphsStep n s paragraph).2.length ≤ n := by
  obtain ⟨chunks, cur⟩ := s
  obtain ⟨h1, h2⟩ := h
  dsimp only at h1 h2
  unfold paragraphsStep
  dsimp only
  split
  case isTrue hskip => exact ⟨h1, h2⟩
  case isFalse hskip =>
    split
    case isTrue hlen =>
      refine ⟨h1, ?_⟩
      dsimp only
      split
      case isTrue hemp =>
        rw [List.isEmpty_iff] at hemp
        subst hemp
        simp only [List.length_nil, Nat.zero_add] at hlen
        omega
      case isFalse hemp =>
        have hsp : (("\n\n".toList : Str)).length = 2 := rfl
        simp only [List.length_append] at *
        omega
    case isFalse hlen =>
      split
      case isTrue hbig =>
        refine ⟨?_, by exact Nat.zero_le n⟩
        intro c hc
        rcases List.mem_append.mp hc with hc | hc
        · split at hc
          · exact h1 c hc
          · rcases List.mem_append.mp hc with hc | hc
            · exact h1 c hc
            · rw [List.mem_singleton.mp hc]
              exact Nat.le_trans (pyStrip_length_le cur) h2
        · exact (split_by_sentences_bound _ n c hc).1
      case isFalse hbig =>
        refine ⟨?_, ?_⟩
        swap
        · show (pyStrip paragraph).length ≤ n
          omega
        intro c hc
        split at hc
        · exact h1 c hc
        · rcases List.mem_append.mp hc with hc | hc
          · exact h1 c hc
          · rw [List.mem_singleton.mp hc]
            exact Nat.le_trans (pyStrip_length_le cur) h2

theorem split_by_paragraphs_bound (t : Str) (n : Nat) :
    ∀ c ∈ split_by_paragraphs t n, c.length ≤ n ∧ c ≠ [] := by
  intro c hc
  unfold split_by_paragraphs at hc
  dsimp only at hc
  have hfold := foldl_preserves
    (fun s : List Str × Str => (∀ c ∈ s.1, c.length ≤ n) ∧ s.2.length ≤ n)
    (paragraphsStep n) (paraRegexSplit (pyStrip t)) ([], [])
    ⟨(by intro c hc; cases hc), (by simp)⟩
    (fun b a _ hb => paragraphsStep_preserves n b a hb)
  constructor
  · have hmem := List.mem_of_mem_filter hc
    split at hmem
    · exact hfold.1 c hmem
    · rcases List.mem_append.mp hmem with hm | hm
      · exact hfold.1 c hm
      · rw [List.mem_singleton.mp hm]
        exact Nat.le_trans (pyStrip_length_le _) hfold.2
  · have hp := List.of_mem_filter hc
    intro hnil
    rw [hnil] at hp
    simp [pyStrip] at hp

theorem split_by_fixed_size_bound (t : Str) (n : Nat) :
    ∀ c ∈ split_by_fixed_size t n, c.length ≤ n ∧ c ≠ [] := by
  intro c hc
  unfold split_by_fixed_size at hc
  constructor
  · have hmem := List.mem_of_mem_filter hc
    rcases List.mem_map.mp hmem with ⟨c0, hc0, hs⟩
    rw [← hs]
    exact Nat.le_trans (pyStrip_length_le c0) (sliceEvery_mem_length n t c0 hc0)
  · have hp := List.of_mem_filter hc
    intro hn
    rw [hn] at hp
    simp at hp

/-- C1 counterexample: `split_text_into_chunks("Ab. Cde.", 7)` returns the
single chunk "Ab. Cde." of length 8 > 7 (the sentence-packing test on
line 53 omits the +1 for the joining space), so not every chunk of the
segmentation functions respects the bound. -/
theorem C1_counterexample :
    ¬ (∀ c ∈ split_text_into_chunks "Ab. Cde.".toList 7, c.length ≤ 7) := by
  decide

/-- C1 amended: every chunk produced by split_text_for_streaming (any
strategy, quality and chunk size) is non-empty and no longer than the
resolved chunk size, thanks to the character-level last resort; and
split_text_into_chunks always terminates (it is a total function of this
development) and returns non-empty chunks for non-empty input, but it lacks
a character-level last resort and its chunks can exceed L. -/
theorem C1_amended :
    (∀ (text : Str) (cs : Option Nat) (st q : Option Str),
      ∀ c ∈ split_text_for_streaming text cs st q,
        c.length ≤ (resolveStreaming cs st q).1 ∧ c ≠ []) ∧
    (∀ (text : Str) (L : Nat), text ≠ [] →
      ∀ c ∈ split_text_into_chunks text L, c ≠ []) := by
  constructor
  · intro text cs st q c hc
    unfold split_text_for_streaming at hc
    dsimp only at hc
    by_cases h1 : (resolveStreaming cs st q).2 = "paragraph".toList
    · rw [if_pos h1] at hc
      exact split_by_paragraphs_bound text _ c hc
    · rw [if_neg h1] at hc
      by_cases h2 : (resolveStreaming cs st q).2 = "sentence".toList
      · rw [if_pos h2] at hc
        exact split_by_sentences_bound text _ c hc
      · rw [if_neg h2] at hc
        by_cases h3 : (resolveStreaming cs st q).2 = "word".toList
        · rw [if_pos h3] at hc
          exact split_by_words_bound text _ c hc
        · rw [if_neg h3] at hc
          by_cases h4 : (resolveStreaming cs st q).2 = "fixed".toList
          · rw [if_pos h4] at hc
            exact split_by_fixed_size_bound text _ c hc
          · rw [if_neg h4] at hc
            exact split_by_sentences_bound text _ c hc
  · intro text L htext c hc
    unfold split_text_into_chunks at hc
    by_cases hlen : text.length ≤ L
    · rw [if_pos hlen] at hc
      rw [List.mem_singleton.mp hc]
      exact htext
    · rw [if_neg hlen] at hc
      dsimp only at hc
      have hp := List.of_mem_filter hc
      intro hnil
      rw [hnil] at hp
      simp [pyStrip] at hp

/-- C1 amended witness: a default sentence split keeps a short text whole
(within the resolved 200-character bound), the word strategy slices a
30-character spaceless unit into chunks of at most 10 characters, and the
legacy splitter returns non-empty chunks. -/
theorem C1_amended_witness :
    ((("Hello. World.".toList : Str).length ≤
        (resolveStreaming none none none).1 ∧
      ("Hello. World.".toList : Str) ≠ []) ∧
     ((List.replicate 10 'a' : Str).length ≤
        (resolveStreaming (some 10) (some "word".toList) none).1 ∧
      (List.replicate 10 'a' : Str) ≠ [])) ∧
    ("aaaa".toList : Str) ≠ [] := by
  constructor
  · constructor
    · exact C1_amended.1 "Hello. World.".toList none none none
        "Hello. World.".toList (by decide)
    · exact C1_amended.1 (List.replicate 30 'a') (some 10)
        (some "word".toList) none (List.replicate 10 'a') (by decide)
  · exact C1_amended.2 "aaaa, bbbb".toList 5 (by decide) "aaaa".toList
      (by decide)

/-! ### C2: content preservation of the legacy splitter -/

theorem filterNonWs_nil : filterNonWs [] = [] := rfl

theorem filterNonWs_append (a b : Str) :
    filterNonWs (a ++ b) = filterNonWs a ++ filterNonWs b :=
  List.filter_append a b

theorem filterNonWs_space : filterNonWs (" ".toList) = [] := by decide

theorem filter_dropWhile_not (l : Str) :
    (l.dropWhile pyIsSpace).filter (fun c => !pyIsSpace c) =
      l.filter (fun c => !pyIsSpace c) := by
  induction l with
  | nil => rfl
  | cons c rest ih =>
    by_cases hp : pyIsSpace c
    · simp [List.dropWhile_cons, hp, List.filter_cons, ih]
    · simp [List.dropWhile_cons, hp, List.filter_cons]

theorem filterNonWs_pyStrip (s : Str) :
    filterNonWs (pyStrip s) = filterNonWs s := by
  simp only [filterNonWs, pyStrip]
  rw [List.filter_reverse, filter_dropWhile_not, List.filter_reverse,
    List.reverse_reverse, filter_dropWhile_not]

theorem filterNonWs_nil_of_strip_empty (s : Str)
    (h : (pyStrip s).isEmpty) : filterNonWs s = [] := by
  rw [← filterNonWs_pyStrip, List.isEmpty_iff.mp h, filterNonWs_nil]

theorem filterNonWs_joinWith_space (chunks : List Str) :
    filterNonWs (joinWith " ".toList chunks) =
      (chunks.map filterNonWs).flatten := by
  induction chunks with
  | nil => rfl
  | cons x xs ih =>
    cases xs with
    | nil => simp [joinWith]
    | cons y ys =>
      simp only [joinWith] at ih ⊢
      rw [filterNonWs_append, filterNonWs_append, ih, filterNonWs_space]
      simp

theorem filterNonWs_flatten (l : List Str) :
    filterNonWs l.flatten = (l.map filterNonWs).flatten := by
  induction l with
  | nil => rfl
  | cons x xs ih => simp [List.flatten_cons, filterNonWs_append, ih]

theorem splitSentencesGo_flatten (s : Str) : ∀ (k : Nat) (acc : Str),
    (splitSentencesGo k acc s).flatten = acc.reverse ++ s := by
  induction s with
  | nil =>
    intro k acc
    cases k with
    | zero => simp [splitSentencesGo]
    | succ k => simp [splitSentencesGo]
  | cons c rest ih =>
    intro k acc
    cases k with
    | zero => simp [splitSentencesGo]
    | succ k =>
      by_cases hk : k = 0
      · subst hk
        simp only [splitSentencesGo, if_pos rfl]
        by_cases hre : rest.isEmpty
        · rw [if_pos hre, List.isEmpty_iff.mp hre]
          simp
        · rw [if_neg hre]
          by_cases hb : bestSplit rest = rest.length
          · rw [if_pos hb]; simp
          · rw [if_neg hb]
            simp [List.flatten_cons, ih]
      · simp only [splitSentencesGo, if_neg hk]
        rw [ih k (c :: acc)]
        simp

theorem splitSentences_flatten (s : Str) :
    (splitSentences s).flatten = s := by
  unfold splitSentences
  by_cases he : s.isEmpty
  · rw [if_pos he, List.isEmpty_iff.mp he]; rfl
  · rw [if_neg he]
    by_cases hb : bestSplit s = s.length
    · rw [if_pos hb]; simp
    · rw [if_neg hb]
      simpa using splitSentencesGo_flatten s (bestSplit s) []

theorem groupStep_content (L : Nat) (chunks : List Str) (cur : Str)
    (sent : Str) (h : (pyStrip sent).length ≤ L) :
    ((groupStep L (chunks, cur) sent).1.map filterNonWs).flatten ++
        filterNonWs (groupStep L (chunks, cur) sent).2 =
      ((chunks.map filterNonWs).flatten ++ filterNonWs cur) ++
        filterNonWs sent := by
  unfold groupStep
  dsimp only
  by_cases h1 : (pyStrip sent).isEmpty
  · rw [if_pos h1, filterNonWs_nil_of_strip_empty sent h1, List.append_nil]
  · rw [if_neg h1]
    by_cases h2 : cur.length + (pyStrip sent).length ≤ L
    · rw [if_pos h2]
      dsimp only
      by_cases h3 : cur.isEmpty
      · rw [if_pos h3, List.isEmpty_iff.mp h3, filterNonWs_pyStrip,
          filterNonWs_nil, List.append_nil]
      · rw [if_neg h3, filterNonWs_append, filterNonWs_append,
          filterNonWs_pyStrip, filterNonWs_space]
        simp
    · rw [if_neg h2]
      have h4 : ¬ (L < (pyStrip sent).length) := by omega
      rw [if_neg h4]
      dsimp only
      by_cases h3 : cur.isEmpty
      · rw [if_pos h3, List.isEmpty_iff.mp h3, filterNonWs_pyStrip,
          filterNonWs_nil, List.append_nil]
      · rw [if_neg h3, List.map_append, List.flatten_append]
        simp [filterNonWs_pyStrip]

theorem groupStep_foldl_content (L : Nat) (sents : List Str) :
    ∀ st : List Str × Str, (∀ s ∈ sents, (pyStrip s).length ≤ L) →
    ((sents.foldl (groupStep L) st).1.map filterNonWs).flatten ++
        filterNonWs (sents.foldl (groupStep L) st).2 =
      ((st.1.map filterNonWs).flatten ++ filterNonWs st.2) ++
        (sents.map filterNonWs).flatten := by
  induction sents with
  | nil => intro st h; simp
  | cons s ss ih =>
    intro st h
    simp only [List.foldl_cons, List.map_cons, List.flatten_cons]
    obtain ⟨c0, u0⟩ := st
    rw [ih (groupStep L (c0, u0) s)
        (fun x hx => h x (List.mem_cons_of_mem _ hx)),
      groupStep_content L c0 u0 s (h s (List.mem_cons_self _ _))]
    simp

theorem filter_strip_flatten (l : List Str) :
    ((l.filter (fun c => !(pyStrip c).isEmpty)).map filterNonWs).flatten =
      (l.map filterNonWs).flatten := by
  induction l with
  | nil => rfl
  | cons x xs ih =>
    by_cases hx : (pyStrip x).isEmpty
    · have hF : filterNonWs x = [] := filterNonWs_nil_of_strip_empty x hx
      simp [List.filter_cons, hx, hF, ih]
    · simp [List.filter_cons, hx, ih]

/-- C2 counterexample: `split_text_into_chunks("aaaa, bbbb", 5)` exercises
the clause-delimiter fallback, which drops the `", "` delimiter between two
packed chunks (text_processing.py line 75 starts the next chunk with the
bare part), so the space-joined chunks lose the comma — a non-whitespace
character of the source text. -/
theorem C2_counterexample :
    filterNonWs (joinWith " ".toList
        (split_text_into_chunks "aaaa, bbbb".toList 5)) ≠
      filterNonWs "aaaa, bbbb".toList := by decide

/-- C2 amended: whenever every stripped sentence of the text fits within
the limit — i.e. the oversize-unit fallback ladder is never exercised —
space-joining the chunks of `split_text_into_chunks` reproduces the text
modulo whitespace normalisation (no non-whitespace character is lost or
altered).  When the fallback ladder IS exercised the claim fails: the
clause-delimiter rung drops the delimiter at every chunk boundary. -/
theorem C2_amended (text : Str) (L : Nat)
    (h : ∀ s ∈ splitSentences text, (pyStrip s).length ≤ L) :
    filterNonWs (joinWith " ".toList (split_text_into_chunks text L)) =
      filterNonWs text := by
  unfold split_text_into_chunks
  by_cases hlen : text.length ≤ L
  · rw [if_pos hlen]; rfl
  · rw [if_neg hlen]
    dsimp only
    rw [filterNonWs_joinWith_space, filter_strip_flatten]
    have hfold := groupStep_foldl_content L (splitSentences text) ([], []) h
    rw [List.map_nil] at hfold
    simp only [List.flatten_nil, filterNonWs_nil, List.nil_append] at hfold
    by_cases h2 : ((splitSentences text).foldl (groupStep L) ([], [])).2.isEmpty
    · rw [if_pos h2]
      rw [List.isEmpty_iff.mp h2, filterNonWs_nil, List.append_nil] at hfold
      rw [hfold, ← filterNonWs_flatten, splitSentences_flatten]
    · rw [if_neg h2, List.map_append, List.flatten_append]
      simp only [List.map_cons, List.map_nil, List.flatten_cons,
        List.flatten_nil, List.append_nil]
      rw [filterNonWs_pyStrip, hfold, ← filterNonWs_flatten,
        splitSentences_flatten]

/-- C2 amended witness: every stripped sentence of "Hello. World." has
length at most 6, and the 6-limit chunks space-join back to the same
non-whitespace content. -/
theorem C2_amended_witness :
    (∀ s ∈ splitSentences ("Hello. World.".toList : Str),
        (pyStrip s).length ≤ 6) ∧
      filterNonWs (joinWith " ".toList
          (split_text_into_chunks "Hello. World.".toList 6)) =
        filterNonWs "Hello. World.".toList :=
  ⟨(by decide), C2_amended "Hello. World.".toList 6 (by decide)⟩

end Chatterbox
